import Mathlib

/-!
# imdb-sqlite: bulk loader and result renderer

A shallow embedding of `cmd/create/create_imdb.go`, `internal/schema.go` and the
table renderer of `cmd/query/query_imdb.go`, followed by the properties proved
about them.

Conventions of the embedding.

* A Go `string` is a Lean `String`, so texts are valid UTF-8; `len` is its length
  in bytes (the length of its UTF-8 encoding), as in Go, while `String.length`
  counts characters.
* A Go `int` is a 64-bit signed integer, held in an `Int`.
* `row[k]` on a slice is `index row k`, which fails with the runtime panic
  "index out of range" where Go does.
* The SQL engine is outside the repository.  A writer receives the engine's
  answers as functions: `exec cur r` is the error `stmt.Exec` returns, if any,
  when the tuple `r` is inserted into a table that currently holds `cur`, and
  `commit cur` the error `tx.Commit` returns, if any.  `Begin`, `Prepare` and
  `Close` are taken to succeed.
* `strconv.Atoi` and `strconv.ParseFloat` are modelled in full, for 64-bit
  `int` and `float64`.
-/

set_option autoImplicit false

namespace ImdbSqlite

/-! ## Go strings -/

/-- The UTF-8 encoding of one character, as a list of byte values. -/
def utf8Bytes (c : Char) : List Nat :=
  let v := c.toNat
  if v < 0x80 then [v]
  else if v < 0x800 then [0xC0 + v / 0x40, 0x80 + v % 0x40]
  else if v < 0x10000 then [0xE0 + v / 0x1000, 0x80 + v / 0x40 % 0x40, 0x80 + v % 0x40]
  else [0xF0 + v / 0x40000, 0x80 + v / 0x1000 % 0x40, 0x80 + v / 0x40 % 0x40, 0x80 + v % 0x40]

/-- The bytes of a Go string: `[]byte(s)`. -/
def goBytes (s : String) : List Nat :=
  s.data.flatMap utf8Bytes

/-- Go's builtin `len(s)` on a string: the number of bytes. -/
def len (s : String) : Nat :=
  (goBytes s).length

/-! ## strconv (Go standard library, 64-bit `int`) -/

/-- The two error kinds of `strconv.NumError`: `ErrSyntax` and `ErrRange`. -/
inductive NumError where
  | errSyn
  | errRng
  deriving DecidableEq, Repr

/-- Go's `strconv.IntSize` on a 64-bit platform. -/
def intSize : Nat := 64

/-- The constant `maxUint64` of strconv. -/
def maxUint64 : Nat := 2 ^ 64 - 1

/-- Go's `lower(c)` of strconv: `c | ('x' - 'X')`, that is, bit 5 set. -/
def lower (c : Nat) : Nat :=
  if c / 32 % 2 = 1 then c else c + 32

/-- The loop of `strconv.ParseUint(s, 10, 0)` over the bytes that remain, `n` being the
value accumulated so far.  Base 10 is given explicitly, so underscores are not digits.
The result is the returned `uint64` and the error kind, if any. -/
def parseUintLoop : List Nat → Nat → Nat × Option NumError
  | [], n => (n, none)
  | c :: cs, n =>
    let cutoff := maxUint64 / 10 + 1
    let maxVal := 2 ^ intSize - 1
    let digit : Option Nat :=
      if 48 ≤ c ∧ c ≤ 57 then some (c - 48)
      else if 97 ≤ lower c ∧ lower c ≤ 122 then some (lower c - 97 + 10)
      else none
    match digit with
    | none => (0, some .errSyn)
    | some d =>
      if d ≥ 10 then (0, some .errSyn)
      else if n ≥ cutoff then (maxVal, some .errRng)
      else
        let n10 := n * 10 % 2 ^ 64
        let n1 := (n10 + d) % 2 ^ 64
        if n1 < n10 ∨ n1 > maxVal then (maxVal, some .errRng)
        else parseUintLoop cs n1

/-- Go's `strconv.ParseUint(s, 10, 0)`, on the bytes of `s`. -/
def ParseUint (s : List Nat) : Nat × Option NumError :=
  if s = [] then (0, some .errSyn) else parseUintLoop s 0

/-- Go's `strconv.ParseInt(s, 10, 0)`, on the bytes of `s`: a leading sign is picked off,
the magnitude is read by `ParseUint`, and a magnitude that does not fit is reported as a
range error together with the nearest representable value. -/
def ParseInt (s : List Nat) : Int × Option NumError :=
  if s = [] then (0, some .errSyn)
  else
    let neg := s.head? = some 45
    let body := if s.head? = some 43 ∨ s.head? = some 45 then s.tail else s
    match ParseUint body with
    | (_, some .errSyn) => (0, some .errSyn)
    | (un, _) =>
      let cutoff : Nat := 2 ^ (intSize - 1)
      if ¬ neg ∧ un ≥ cutoff then ((cutoff : Int) - 1, some .errRng)
      else if neg ∧ un > cutoff then (-(cutoff : Int), some .errRng)
      else (if neg then -(un : Int) else (un : Int), none)

/-- The fast path loop of `strconv.Atoi`: decimal digits only, no overflow possible. -/
def atoiFast : List Nat → Nat → Option Nat
  | [], n => some n
  | ch :: rest, n =>
    let d := (ch + 256 - 48) % 256
    if d > 9 then none else atoiFast rest (n * 10 + d)

/-- Go's `strconv.Atoi(s)`: the returned `int` and the error kind, `none` for a nil error. -/
def Atoi (s : String) : Int × Option NumError :=
  let b := goBytes s
  if 0 < b.length ∧ b.length < 19 then
    let signed := b.head? = some 45 ∨ b.head? = some 43
    let body := if signed then b.tail else b
    if signed ∧ body.length < 1 then (0, some .errSyn)
    else
      match atoiFast body 0 with
      | none => (0, some .errSyn)
      | some n => (if b.head? = some 45 then -(n : Int) else (n : Int), none)
  else ParseInt b

/-! ### strconv.ParseFloat

The syntax follows `special`, `readFloat` and `underscoreOK` of strconv byte by byte.
The value is the one strconv documents and computes on all its paths: the nearest
`float64`, ties to even, infinite with a range error when that is out of range. -/

/-- A `float64` value: `finite neg m e` is `(-1)^neg * m * 2^e` with `m` odd, or zero
(`m = 0`, `e = 0`) with its sign. -/
inductive Float64 where
  | finite (neg : Bool) (mant : Nat) (exp : Int)
  | inf (neg : Bool)
  | nan
  deriving DecidableEq, Repr

/-- The value `+0`. -/
instance instZeroFloat64 : Zero Float64 := ⟨.finite false 0 0⟩

/-- Go's `commonPrefixLenIgnoreCase(s, prefix)`, the pattern being lower case. -/
def commonPrefixLenIgnoreCase : List Nat → List Nat → Nat
  | c :: cs, p :: ps =>
    let c1 := if 65 ≤ c ∧ c ≤ 90 then c + 32 else c
    if c1 ≠ p then 0 else commonPrefixLenIgnoreCase cs ps + 1
  | _, _ => 0

/-- Go's `special(s)` of strconv: the value and the number of bytes read. -/
def special (s : List Nat) : Option (Float64 × Nat) :=
  match s with
  | [] => none
  | c :: rest =>
    if c = 43 ∨ c = 45 then
      let n0 := commonPrefixLenIgnoreCase rest (goBytes "infinity")
      let n := if 3 < n0 ∧ n0 < 8 then 3 else n0
      if n = 3 ∨ n = 8 then some (.inf (c = 45), 1 + n) else none
    else if c = 105 ∨ c = 73 then
      let n0 := commonPrefixLenIgnoreCase s (goBytes "infinity")
      let n := if 3 < n0 ∧ n0 < 8 then 3 else n0
      if n = 3 ∨ n = 8 then some (.inf false, n) else none
    else if c = 110 ∨ c = 78 then
      if commonPrefixLenIgnoreCase s (goBytes "nan") = 3 then some (.nan, 3) else none
    else none

/-- The state of the digit loop of `readFloat`. -/
structure Mantissa where
  digits : Nat
  nd : Nat
  dp : Int
  sawdot : Bool
  sawdigits : Bool
  underscores : Bool
  deriving DecidableEq, Repr

/-- The digit loop of `readFloat`; the result is the state and the bytes not read. -/
def readDigits (hex : Bool) : List Nat → Mantissa → Mantissa × List Nat
  | [], m => (m, [])
  | c :: cs, m =>
    if c = 95 then readDigits hex cs { m with underscores := true }
    else if c = 46 then
      if m.sawdot then (m, c :: cs)
      else readDigits hex cs { m with sawdot := true, dp := m.nd }
    else if 48 ≤ c ∧ c ≤ 57 then
      if c = 48 ∧ m.nd = 0 then
        readDigits hex cs { m with sawdigits := true, dp := m.dp - 1 }
      else
        readDigits hex cs { m with sawdigits := true, nd := m.nd + 1,
                                   digits := m.digits * (if hex then 16 else 10) + (c - 48) }
    else if hex ∧ 97 ≤ lower c ∧ lower c ≤ 102 then
      readDigits hex cs { m with sawdigits := true, nd := m.nd + 1,
                                 digits := m.digits * 16 + (lower c - 97 + 10) }
    else (m, c :: cs)

/-- The exponent digit loop of `readFloat`: the value `e`, whether an underscore was
seen, and the bytes not read. -/
def readExpDigits : List Nat → Nat → Bool → Nat × Bool × List Nat
  | [], e, u => (e, u, [])
  | c :: cs, e, u =>
    if c = 95 then readExpDigits cs e true
    else if 48 ≤ c ∧ c ≤ 57 then
      readExpDigits cs (if e < 10000 then e * 10 + (c - 48) else e) u
    else (e, u, c :: cs)

/-- The loop of Go's `underscoreOK(s)`: `saw` is 0 at the start, 1 after a digit or base
prefix, 2 after an underscore, 3 after anything else. -/
def underscoreLoop (hex : Bool) : List Nat → Nat → Bool
  | [], saw => saw ≠ 2
  | c :: cs, saw =>
    if (48 ≤ c ∧ c ≤ 57) ∨ (hex ∧ 97 ≤ lower c ∧ lower c ≤ 102) then underscoreLoop hex cs 1
    else if c = 95 then
      if saw ≠ 1 then false else underscoreLoop hex cs 2
    else if saw = 2 then false
    else underscoreLoop hex cs 3

/-- Go's `underscoreOK(s)`: an optional sign and base prefix, then the loop. -/
def underscoreOK (s : List Nat) : Bool :=
  let s1 := match s with
    | c :: rest => if c = 45 ∨ c = 43 then rest else s
    | [] => s
  match s1 with
  | a :: b :: rest =>
    if a = 48 ∧ (lower b = 98 ∨ lower b = 111 ∨ lower b = 120) then
      underscoreLoop (lower b = 120) rest 1
    else underscoreLoop false s1 0
  | _ => underscoreLoop false s1 0

/-- What `readFloat` found: sign, base, digits and the exponent of the base-10 or base-2
scale, with the number of bytes read. -/
structure Scan where
  neg : Bool
  hex : Bool
  digits : Nat
  nd : Nat
  dp : Int
  n : Nat
  deriving DecidableEq, Repr

/-- Go's `readFloat(s)`, `none` for `ok = false`.  The digits are kept in full where the
source keeps the first 19 (or 16) and a flag for the rest. -/
def readFloat (s : List Nat) : Option Scan :=
  match s with
  | [] => none
  | c0 :: _ =>
    let neg := c0 = 45
    let s1 := if c0 = 43 ∨ c0 = 45 then s.tail else s
    let hex := match s1 with
      | a :: b :: _ :: _ => a = 48 ∧ lower b = 120
      | _ => false
    let s2 := if hex then s1.drop 2 else s1
    let (m, rest) := readDigits hex s2 ⟨0, 0, 0, false, false, false⟩
    if ¬ m.sawdigits then none
    else
      let dp0 : Int := if m.sawdot then m.dp else m.nd
      let dp1 : Int := if hex then dp0 * 4 else dp0
      let expChar := if hex then 112 else 101
      let fin (dp : Int) (us : Bool) (rest : List Nat) : Option Scan :=
        let n := s.length - rest.length
        if us ∧ ¬ underscoreOK (s.take n) then none
        else some ⟨neg, hex, m.digits, m.nd, dp, n⟩
      match rest with
      | c :: r1 =>
        if lower c = expChar then
          match r1 with
          | [] => none
          | d :: r2 =>
            let esign : Int := if d = 45 then -1 else 1
            let r3 := if d = 43 ∨ d = 45 then r2 else r1
            match r3 with
            | [] => none
            | f :: _ =>
              if f < 48 ∨ f > 57 then none
              else
                let (e, us, r4) := readExpDigits r3 0 m.underscores
                fin (dp1 + e * esign) us r4
        else if hex then none
        else fin dp1 m.underscores rest
      | [] => if hex then none else fin dp1 m.underscores rest

/-- The number of binary digits of `n`, counted with at most `fuel` halvings. -/
def bitLenAux : Nat → Nat → Nat
  | 0, _ => 0
  | fuel + 1, n => if n = 0 then 0 else bitLenAux fuel (n / 2) + 1

/-- The number of binary digits of `n`. -/
def bitLen (n : Nat) : Nat := bitLenAux n n

/-- The pair `(m, e)` with factors of two moved from `m` into the exponent. -/
def oddPart : Nat → Nat → Int → Nat × Int
  | 0, m, e => (m, e)
  | fuel + 1, m, e => if m % 2 = 0 ∧ m ≠ 0 then oddPart fuel (m / 2) (e + 1) else (m, e)

/-- The `float64` nearest to `num / den`, ties going to the even mantissa, with the
sign `neg`; the flag reports overflow, for which the value is infinite. -/
def nearestFloat64 (neg : Bool) (num den : Nat) : Float64 × Bool :=
  if num = 0 then (.finite neg 0 0, false)
  else
    let e0 : Int := (bitLen num : Int) - (bitLen den : Int)
    let e : Int := if num * 2 ^ (-e0).toNat ≥ den * 2 ^ e0.toNat then e0 else e0 - 1
    let u : Int := max (e - 52) (-1074)
    let N := num * 2 ^ (-u).toNat
    let D := den * 2 ^ u.toNat
    let m0 := N / D
    let r := N % D
    let m := if 2 * r > D ∨ (2 * r = D ∧ m0 % 2 = 1) then m0 + 1 else m0
    if m = 0 then (.finite neg 0 0, false)
    else if (bitLen m : Int) + u > 1024 then (.inf neg, true)
    else
      let p := oddPart 64 m u
      (.finite neg p.1 p.2, false)

/-- The `float64` that strconv returns for a scan and whether it reports a range error:
the value `digits * 10 ^ (dp - nd)`, or `digits * 2 ^ (dp - 4 * nd)` for a hexadecimal
mantissa, rounded to the nearest `float64`.  The first tests cut off exponents far
outside the range, as the slow path of strconv does (`dp > 310`, `dp < -330`). -/
def scanValue (sc : Scan) : Float64 × Bool :=
  if sc.digits = 0 then (.finite sc.neg 0 0, false)
  else if sc.hex then
    let x : Int := sc.dp - 4 * sc.nd
    let top : Int := (bitLen sc.digits : Int) + x
    if top > 1100 then (.inf sc.neg, true)
    else if top < -1100 then (.finite sc.neg 0 0, false)
    else nearestFloat64 sc.neg (sc.digits * 2 ^ x.toNat) (2 ^ (-x).toNat)
  else
    if sc.dp > 310 then (.inf sc.neg, true)
    else if sc.dp < -330 then (.finite sc.neg 0 0, false)
    else
      let x : Int := sc.dp - sc.nd
      nearestFloat64 sc.neg (sc.digits * 10 ^ x.toNat) (10 ^ (-x).toNat)

/-- Go's `strconv.ParseFloat(s, 64)`: the returned value and the error kind.  A text
that is not read to its end, or not at all, gives `0` and a syntax error. -/
def ParseFloat (s : String) : Float64 × Option NumError :=
  let b := goBytes s
  match special b with
  | some (v, n) => if n = b.length then (v, none) else (0, some .errSyn)
  | none =>
    match readFloat b with
    | none => (0, some .errSyn)
    | some sc =>
      if sc.n ≠ b.length then (0, some .errSyn)
      else
        let v := scanValue sc
        (v.1, if v.2 then some .errRng else none)

/-! ## Slices and rows -/

/-- A Go runtime panic "index out of range [index] with length length". -/
structure Panic where
  index : Nat
  length : Nat
  deriving DecidableEq, Repr

/-- Go's `row[k]` on a slice of strings: the element, or the runtime panic. -/
def index (row : List String) (k : Nat) : Except Panic String :=
  match row.get? k with
  | some s => .ok s
  | none => .error ⟨k, row.length⟩

/-- The argument tuple of the prepared `INSERT INTO movies(movie_id, name, year, rank)`. -/
structure MovieRow where
  movie_id : Int
  name : String
  year : Int
  rank : Float64
  deriving DecidableEq, Repr

/-- The argument tuple of `INSERT INTO actors(actor_id, first_name, last_name, gender)`,
which is also the row as stored. -/
structure ActorRow where
  actor_id : Int
  first_name : String
  last_name : String
  gender : String
  deriving DecidableEq, Repr

/-- The argument tuple of `INSERT INTO genres(movie_id, genre)`, which is also the row as
stored. -/
structure GenreRow where
  movie_id : Int
  genre : String
  deriving DecidableEq, Repr

/-- The argument tuple of `INSERT INTO roles(actor_id, movie_id, role)`, which is also
the row as stored. -/
structure RoleRow where
  actor_id : Int
  movie_id : Int
  role : String
  deriving DecidableEq, Repr

/-- Lines 133-137 of `writeMovies`: the conversions `Atoi(row[0])`, `Atoi(row[2])`,
`ParseFloat(row[3], 64)` with their errors discarded, then `row[1]`, in that order of
evaluation. -/
def movieArgs (row : List String) : Except Panic MovieRow := do
  let f0 ← index row 0
  let id := (Atoi f0).1
  let f2 ← index row 2
  let year := (Atoi f2).1
  let f3 ← index row 3
  let rank := (ParseFloat f3).1
  let f1 ← index row 1
  pure ⟨id, f1, year, rank⟩

/-- Lines 161-163 of `writeActors`. -/
def actorArgs (row : List String) : Except Panic ActorRow := do
  let f0 ← index row 0
  let id := (Atoi f0).1
  let f1 ← index row 1
  let f2 ← index row 2
  let f3 ← index row 3
  pure ⟨id, f1, f2, f3⟩

/-- Lines 187-189 of `writeGenres`. -/
def genreArgs (row : List String) : Except Panic GenreRow := do
  let f0 ← index row 0
  let id := (Atoi f0).1
  let f1 ← index row 1
  pure ⟨id, f1⟩

/-- Lines 213-216 of `writeRoles`. -/
def roleArgs (row : List String) : Except Panic RoleRow := do
  let f0 ← index row 0
  let aid := (Atoi f0).1
  let f1 ← index row 1
  let mid := (Atoi f1).1
  let f2 ← index row 2
  pure ⟨aid, mid, f2⟩

/-! ## The tables as the store keeps them

A table is the list of its rows in the order a scan (`SELECT *`) returns them, which is
the order of the rowids.  In `movies` and `actors` the `INTEGER PRIMARY KEY` column is
the rowid, so the rows are held in the order of the keys; `genres` and `roles` get
increasing rowids and are held in the order of insertion.  A `float64` bound to the
`REAL` column is stored as it is, except that NaN is stored as NULL and negative zero
as zero. -/

/-- A row of `movies` as stored; `none` in `rank` is NULL. -/
structure StoredMovie where
  movie_id : Int
  name : String
  year : Int
  rank : Option Float64
  deriving DecidableEq, Repr

/-- What SQLite stores in a `REAL` column for a bound `float64`. -/
def storeReal : Float64 → Option Float64
  | .nan => none
  | .finite _ 0 _ => some (.finite false 0 0)
  | x => some x

/-- The stored row of a movies tuple. -/
def storeMovie (r : MovieRow) : StoredMovie :=
  ⟨r.movie_id, r.name, r.year, storeReal r.rank⟩

/-- A table held in the order of its keys, after a row is added: the row comes after
the rows whose key is not greater. -/
def placeByKey {S : Type} (key : S → Int) : List S → S → List S
  | [], s => [s]
  | x :: xs, s => if key s < key x then s :: x :: xs else x :: placeByKey key xs s

/-- A table held in the order of insertion, after a row is added. -/
def placeLast {S : Type} (t : List S) (s : S) : List S :=
  t ++ [s]

/-! ## The transactional writers -/

/-- The answers of the SQL engine for one table. -/
structure TableEngine (R S : Type) where
  /-- The error `stmt.Exec` returns, if any, for the tuple `r` when the transaction sees
  the table as `cur`. -/
  exec : List S → R → Option String
  /-- The error `tx.Commit` returns, if any, when the transaction holds the table
  `cur`. -/
  commit : List S → Option String

/-- How a call ended: it returned (`none` for a nil error), or it panicked. -/
inductive Exit where
  | returned (err : Option String)
  | panicked (p : Panic)
  deriving DecidableEq, Repr

/-- The state of a `sql.Tx`: `commitFailed` after `Commit` returned an error, in which
case nothing was committed. -/
inductive TxStatus where
  | active
  | committed
  | rolledBack
  | commitFailed
  deriving DecidableEq, Repr

/-- What a writer leaves behind. -/
structure WriteResult (R S : Type) where
  /-- Return value or panic. -/
  exit : Exit
  /-- State of the transaction the call opened. -/
  tx : TxStatus
  /-- Committed contents of the table after the call. -/
  table : List S
  /-- Tuples inserted inside the transaction and not committed. -/
  pending : List R
  /-- Argument tuples handed to `stmt.Exec`, in order. -/
  execs : List R
  /-- Lines written to standard output, each the operand list of one `fmt.Println`. -/
  out : List (List String)
  deriving Repr

/-- How the `for i, row := range data` loop of a writer ends. -/
inductive LoopExit (R S : Type) where
  /-- The range is exhausted; `cur` is the table as the transaction sees it and
  `pending` are the tuples inserted. -/
  | done (cur : List S) (pending : List R)
  /-- The loop body executed `return fmt.Errorf(...)` for the tuple `r`. -/
  | failed (msg : String) (pending : List R) (r : R)
  /-- An index expression panicked. -/
  | panicked (p : Panic) (pending : List R)
  deriving Repr

/-- Go's `fmt.Errorf("insert <what> row %d: %w", n, err)`, as text. -/
def errorf (what : String) (n : Nat) (err : String) : String :=
  "insert " ++ what ++ " row " ++ toString n ++ ": " ++ err

/-- The loop `for i, row := range data` shared by the four writers, from index `i` on.
`what` is the table word of the error text, `args` the conversion of a row into the
argument tuple, `store` and `place` the way the table keeps a tuple, `exec` the answer
of `stmt.Exec`, `cur` the table as the transaction sees it and `pending` the tuples
inserted so far. -/
def insertLoop {R S : Type} (what : String) (args : List String → Except Panic R)
    (store : R → S) (place : List S → S → List S) (exec : List S → R → Option String) :
    Nat → List (List String) → List S → List R → LoopExit R S
  | _, [], cur, pending => .done cur pending
  | i, row :: rest, cur, pending =>
    if i = 0 then insertLoop what args store place exec (i + 1) rest cur pending
    else
      match args row with
      | .error p => .panicked p pending
      | .ok r =>
        match exec cur r with
        | some e => .failed (errorf what (i + 1) e) pending r
        | none =>
          insertLoop what args store place exec (i + 1) rest (place cur (store r))
            (pending ++ [r])

/-- The body common to `writeMovies`, `writeActors`, `writeGenres` and `writeRoles`:
print, begin, prepare, loop, and after the loop close the statement, print the count and
return what `tx.Commit()` returns.  The error return inside the loop leaves the function
at once: the source has no `Rollback` and no deferred call, so the transaction stays
active. -/
def writeTable {R S : Type} (title what : String) (args : List String → Except Panic R)
    (store : R → S) (place : List S → S → List S) (eng : TableEngine R S)
    (table : List S) (data : List (List String)) : WriteResult R S :=
  let hello := ["Inserting " ++ what ++ "s..."]
  match insertLoop what args store place eng.exec 0 data table [] with
  | .done cur pending =>
    let count := [title ++ " inserted:", toString ((data.length : Int) - 1)]
    match eng.commit cur with
    | none =>
      { exit := .returned none, tx := .committed, table := cur, pending := [],
        execs := pending, out := [hello, count] }
    | some e =>
      { exit := .returned (some e), tx := .commitFailed, table := table,
        pending := pending, execs := pending, out := [hello, count] }
  | .failed msg pending r =>
    { exit := .returned (some msg), tx := .active, table := table, pending := pending,
      execs := pending ++ [r], out := [hello] }
  | .panicked p pending =>
    { exit := .panicked p, tx := .active, table := table, pending := pending,
      execs := pending, out := [hello] }

/-- The function `writeMovies(db, data)`. -/
def writeMovies (eng : TableEngine MovieRow StoredMovie) (table : List StoredMovie)
    (data : List (List String)) : WriteResult MovieRow StoredMovie :=
  writeTable "Movies" "movie" movieArgs storeMovie (placeByKey (fun s => s.movie_id)) eng
    table data

/-- The function `writeActors(db, data)`. -/
def writeActors (eng : TableEngine ActorRow ActorRow) (table : List ActorRow)
    (data : List (List String)) : WriteResult ActorRow ActorRow :=
  writeTable "Actors" "actor" actorArgs id (placeByKey (fun s => s.actor_id)) eng table data

/-- The function `writeGenres(db, data)`. -/
def writeGenres (eng : TableEngine GenreRow GenreRow) (table : List GenreRow)
    (data : List (List String)) : WriteResult GenreRow GenreRow :=
  writeTable "Genres" "genre" genreArgs id placeLast eng table data

/-- The function `writeRoles(db, data)`. -/
def writeRoles (eng : TableEngine RoleRow RoleRow) (table : List RoleRow)
    (data : List (List String)) : WriteResult RoleRow RoleRow :=
  writeTable "Roles" "role" roleArgs id placeLast eng table data

/-! ## The store's constraints

The only constraints of `Schema` that an insert of Go values can violate are the two
`INTEGER PRIMARY KEY` declarations (`name TEXT NOT NULL` always receives a string, and
SQLite does not enforce the foreign keys unless asked to).  The error texts are those of
the `modernc.org/sqlite` driver. -/

/-- SQLite's answers for `movies`: a duplicate `movie_id` is refused, commits succeed. -/
def sqliteMovies : TableEngine MovieRow StoredMovie where
  exec cur r :=
    if r.movie_id ∈ cur.map (fun x => x.movie_id) then
      some "constraint failed: UNIQUE constraint failed: movies.movie_id (1555)"
    else none
  commit _ := none

/-- SQLite's answers for `actors`: a duplicate `actor_id` is refused, commits succeed. -/
def sqliteActors : TableEngine ActorRow ActorRow where
  exec cur r :=
    if r.actor_id ∈ cur.map (fun x => x.actor_id) then
      some "constraint failed: UNIQUE constraint failed: actors.actor_id (1555)"
    else none
  commit _ := none

/-- SQLite's answers for `genres`: every insert is accepted, commits succeed. -/
def sqliteGenres : TableEngine GenreRow GenreRow where
  exec _ _ := none
  commit _ := none

/-- SQLite's answers for `roles`: every insert is accepted, commits succeed. -/
def sqliteRoles : TableEngine RoleRow RoleRow where
  exec _ _ := none
  commit _ := none

/-! ## main -/

/-- The committed contents of the four tables. -/
structure DB where
  movies : List StoredMovie
  actors : List ActorRow
  genres : List GenreRow
  roles : List RoleRow
  deriving DecidableEq, Repr

/-- The answers of the SQL engine for the four tables. -/
structure Engine where
  movies : TableEngine MovieRow StoredMovie
  actors : TableEngine ActorRow ActorRow
  genres : TableEngine GenreRow GenreRow
  roles : TableEngine RoleRow RoleRow

/-- The engine with the constraints of `Schema`. -/
def sqlite : Engine :=
  ⟨sqliteMovies, sqliteActors, sqliteGenres, sqliteRoles⟩

/-- How the process ends: normally, by `log.Fatalf` inside `must(context, err)`, or by
a panic. -/
inductive ProcExit where
  | ok
  | fatal (context : String) (details : String)
  | panic (p : Panic)
  deriving DecidableEq, Repr

/-- The observable result of a run. -/
structure Run where
  exit : ProcExit
  db : DB
  out : List (List String)
  deriving DecidableEq, Repr

/-- The function `must(context, err)`: with a non-nil error `log.Fatalf` ends the
process, otherwise the call returns and the caller goes on (`none`). -/
def must (context : String) (err : Option String) : Option ProcExit :=
  match err with
  | some e => some (.fatal context e)
  | none => none

/-- Lines 78-94 of `main`: the four loads in sequence, the error of each passed to
`must`. -/
def loadAll (E : Engine) (db : DB)
    (moviesData actorsData genresData rolesData : List (List String)) : Run :=
  let out0 := [["Writing to SQLite..."]]
  let m := writeMovies E.movies db.movies moviesData
  let db1 := { db with movies := m.table }
  match m.exit with
  | .panicked p => ⟨.panic p, db1, out0 ++ m.out⟩
  | .returned err1 =>
    match must "failed inserting movies" err1 with
    | some stop => ⟨stop, db1, out0 ++ m.out⟩
    | none =>
      let a := writeActors E.actors db.actors actorsData
      let db2 := { db1 with actors := a.table }
      match a.exit with
      | .panicked p => ⟨.panic p, db2, out0 ++ m.out ++ a.out⟩
      | .returned err2 =>
        match must "failed inserting actors" err2 with
        | some stop => ⟨stop, db2, out0 ++ m.out ++ a.out⟩
        | none =>
          let g := writeGenres E.genres db.genres genresData
          let db3 := { db2 with genres := g.table }
          match g.exit with
          | .panicked p => ⟨.panic p, db3, out0 ++ m.out ++ a.out ++ g.out⟩
          | .returned err3 =>
            match must "failed inserting genres" err3 with
            | some stop => ⟨stop, db3, out0 ++ m.out ++ a.out ++ g.out⟩
            | none =>
              let r := writeRoles E.roles db.roles rolesData
              let db4 := { db3 with roles := r.table }
              match r.exit with
              | .panicked p => ⟨.panic p, db4, out0 ++ m.out ++ a.out ++ g.out ++ r.out⟩
              | .returned err4 =>
                match must "failed inserting roles" err4 with
                | some stop => ⟨stop, db4, out0 ++ m.out ++ a.out ++ g.out ++ r.out⟩
                | none =>
                  ⟨.ok, db4, out0 ++ m.out ++ a.out ++ g.out ++ r.out ++
                    [["All data loaded successfully into imdb.db"]]⟩

/-- The four reader goroutines of `main`. -/
inductive Reader where
  | movies
  | actors
  | genres
  | roles
  deriving DecidableEq, Repr

/-- What `readCSV` returned in one goroutine: `(nil, err)` or `(records, nil)`. -/
inductive ReadResult where
  | failed (err : String)
  | records (rows : List (List String))
  deriving DecidableEq, Repr

/-- First component of the pair returned by `readCSV`. -/
def ReadResult.data : ReadResult → List (List String)
  | .failed _ => []
  | .records rows => rows

/-- Second component of the pair returned by `readCSV`. -/
def ReadResult.err : ReadResult → Option String
  | .failed e => some e
  | .records _ => none

/-- The variables declared at lines 44-45 of `main`. -/
structure Slots where
  moviesData : List (List String)
  actorsData : List (List String)
  genresData : List (List String)
  rolesData : List (List String)
  readErr : Option String
  deriving DecidableEq, Repr

/-- The assignment `xData, readErr = readCSV(...)` of one goroutine taking effect. -/
def assign (res : Reader → ReadResult) (s : Slots) : Reader → Slots
  | .movies => { s with moviesData := (res .movies).data, readErr := (res .movies).err }
  | .actors => { s with actorsData := (res .actors).data, readErr := (res .actors).err }
  | .genres => { s with genresData := (res .genres).data, readErr := (res .genres).err }
  | .roles => { s with rolesData := (res .roles).data, readErr := (res .roles).err }

/-- The variables after `wg.Wait()`, the assignments having taken effect in the order
`order`. -/
def joined (res : Reader → ReadResult) (order : List Reader) : Slots :=
  order.foldl (assign res) ⟨[], [], [], [], none⟩

/-- Lines 41-95 of `main`, run on the freshly created database (four empty tables):
the results `res` of the four `readCSV` calls are assigned in the order `order`, then
`readErr` is tested and the loads run.  The progress lines of the readers themselves are
not part of `out`. -/
def main (E : Engine) (res : Reader → ReadResult) (order : List Reader) : Run :=
  let s := joined res order
  let out0 := [["Reading CSVs..."]]
  match must "failed while reading CSV files" s.readErr with
  | some stop => ⟨stop, ⟨[], [], [], []⟩, out0⟩
  | none =>
    let w := loadAll E ⟨[], [], [], []⟩ s.moviesData s.actorsData s.genresData s.rolesData
    ⟨w.exit, w.db, out0 ++ [["Finished reading all CSV files"]] ++ w.out⟩

/-- The line a writer prints first; its presence in the output marks the call. -/
def startLine (what : String) : List String :=
  ["Inserting " ++ what ++ "s..."]

/-! ## The schema script -/

/-- One column definition of a `CREATE TABLE`. -/
structure Column where
  name : String
  type : String
  primaryKey : Bool
  notNull : Bool
  deriving DecidableEq, Repr

/-- A `FOREIGN KEY (column) REFERENCES refTable(refColumn)` clause. -/
structure ForeignKey where
  column : String
  refTable : String
  refColumn : String
  deriving DecidableEq, Repr

/-- The three statement forms that occur in `Schema`. -/
inductive Stmt where
  | dropTableIfExists (table : String)
  | createTable (table : String) (columns : List Column) (foreignKeys : List ForeignKey)
  | createIndex (name : String) (table : String) (column : String)
  deriving DecidableEq, Repr

/-- The constant `Schema` of `internal/schema.go`, statement by statement. -/
def Schema : List Stmt :=
  [ .dropTableIfExists "roles",
    .dropTableIfExists "genres",
    .dropTableIfExists "actors",
    .dropTableIfExists "movies",
    .createTable "movies"
      [⟨"movie_id", "INTEGER", true, false⟩, ⟨"name", "TEXT", false, true⟩,
       ⟨"year", "INTEGER", false, false⟩, ⟨"rank", "REAL", false, false⟩] [],
    .createTable "actors"
      [⟨"actor_id", "INTEGER", true, false⟩, ⟨"first_name", "TEXT", false, false⟩,
       ⟨"last_name", "TEXT", false, false⟩, ⟨"gender", "TEXT", false, false⟩] [],
    .createTable "genres"
      [⟨"movie_id", "INTEGER", false, false⟩, ⟨"genre", "TEXT", false, false⟩]
      [⟨"movie_id", "movies", "movie_id"⟩],
    .createIndex "idx_genres_movie_id" "genres" "movie_id",
    .createTable "roles"
      [⟨"actor_id", "INTEGER", false, false⟩, ⟨"movie_id", "INTEGER", false, false⟩,
       ⟨"role", "TEXT", false, false⟩]
      [⟨"actor_id", "actors", "actor_id"⟩, ⟨"movie_id", "movies", "movie_id"⟩],
    .createIndex "idx_roles_actor_id" "roles" "actor_id",
    .createIndex "idx_roles_movie_id" "roles" "movie_id" ]

/-- A table of the database: its definition and its rows. -/
structure TableState (ρ : Type) where
  name : String
  columns : List Column
  foreignKeys : List ForeignKey
  rows : List ρ
  deriving DecidableEq, Repr

/-- An index of the database. -/
structure IndexState where
  name : String
  table : String
  column : String
  deriving DecidableEq, Repr

/-- The objects of a database file. -/
structure Catalog (ρ : Type) where
  tables : List (TableState ρ)
  indexes : List IndexState
  deriving DecidableEq, Repr

/-- Whether a table or an index of that name exists. -/
def Catalog.hasName {ρ : Type} (c : Catalog ρ) (n : String) : Bool :=
  c.tables.any (fun t => t.name == n) || c.indexes.any (fun i => i.name == n)

/-- SQLite's execution of one statement.  `DROP TABLE IF EXISTS` removes the table and
the indexes that belong to it and is a no-op when there is no such table; `CREATE
TABLE` and `CREATE INDEX` fail when the name is taken, and `CREATE INDEX` also when the
table or the column is missing. -/
def execStmt {ρ : Type} (c : Catalog ρ) : Stmt → Except String (Catalog ρ)
  | .dropTableIfExists t =>
    .ok ⟨c.tables.filter (fun x => x.name != t), c.indexes.filter (fun i => i.table != t)⟩
  | .createTable t cols fks =>
    if c.hasName t then .error ("table " ++ t ++ " already exists")
    else .ok ⟨c.tables ++ [⟨t, cols, fks, []⟩], c.indexes⟩
  | .createIndex n t col =>
    if c.hasName n then .error ("index " ++ n ++ " already exists")
    else
      match c.tables.find? (fun x => x.name == t) with
      | none => .error ("no such table: main." ++ t)
      | some tb =>
        if tb.columns.any (fun k => k.name == col) then
          .ok ⟨c.tables, c.indexes ++ [⟨n, t, col⟩]⟩
        else .error ("no such column: " ++ col)

/-- The call `db.Exec(script)`: the statements run in order and the first failure ends
the call. -/
def execScript {ρ : Type} : Catalog ρ → List Stmt → Except String (Catalog ρ)
  | c, [] => .ok c
  | c, st :: rest =>
    match execStmt c st with
    | .error e => .error e
    | .ok c1 => execScript c1 rest

/-- The tables dropped by a script, in the order of the drops. -/
def dropOrder : List Stmt → List String
  | [] => []
  | .dropTableIfExists t :: rest => t :: dropOrder rest
  | _ :: rest => dropOrder rest

/-- The pairs (dependent table, table it references) declared by a script. -/
def references : List Stmt → List (String × String)
  | [] => []
  | .createTable t _ fks :: rest => fks.map (fun k => (t, k.refTable)) ++ references rest
  | _ :: rest => references rest

/-! ## The result renderer -/

/-- Go's `strings.Repeat(s, count)`. -/
def Repeat (s : String) : Nat → String
  | 0 => ""
  | n + 1 => Repeat s n ++ s

/-- The function `pad(s, width)`. -/
def pad (s : String) (width : Nat) : String :=
  if len s ≥ width then s else s ++ Repeat " " (width - len s)

/-- The text printed by `printBorder(colWidths)` after the opening `+`. -/
def borderCells : List Nat → String
  | [] => ""
  | w :: ws => (Repeat "-" (w + 2) ++ "+") ++ borderCells ws

/-- The line printed by `printBorder(colWidths)`. -/
def printBorder (colWidths : List Nat) : String :=
  "+" ++ borderCells colWidths

/-- The loop at lines 190-194 for one row: `colWidths[i]` is raised to `len(cell)`.
`none` is the panic of `colWidths[i]` when the row has more cells than there are
columns. -/
def widen : List Nat → List String → Option (List Nat)
  | ws, [] => some ws
  | [], _ :: _ => none
  | w :: ws, cell :: cells =>
    match widen ws cells with
    | none => none
    | some ws1 => some ((if len cell > w then len cell else w) :: ws1)

/-- The loops at lines 184-195: the widths start at the lengths of the column names and
are raised row by row. -/
def colWidths (cols : List String) : List (List String) → Option (List Nat)
  | data => data.foldlM widen (cols.map len)

/-- The text of the loop `for i, cell := range row { fmt.Printf(" %s |", pad(cell,
colWidths[i])) }`, `none` being the panic of `colWidths[i]`. -/
def cellsText : List String → List Nat → Option String
  | [], _ => some ""
  | _ :: _, [] => none
  | cell :: cells, w :: ws =>
    match cellsText cells ws with
    | none => none
    | some rest => some ((" " ++ pad cell w ++ " |") ++ rest)

/-- One printed line of cells: `|` followed by the padded cells. -/
def rowLine (row : List String) (ws : List Nat) : Option String :=
  (cellsText row ws).map (fun t => "|" ++ t)

/-- The loop at lines 207-213: one printed line per row, `none` being a panic. -/
def rowLines (ws : List Nat) : List (List String) → Option (List String)
  | [] => some []
  | row :: rest =>
    match rowLine row ws with
    | none => none
    | some l =>
      match rowLines ws rest with
      | none => none
      | some ls => some (l :: ls)

/-- Lines 183-214 of `printTable`, on the column names and the rows read from the
cursor: the lines printed, in order. -/
def printTable (cols : List String) (data : List (List String)) : Option (List String) :=
  match colWidths cols data with
  | none => none
  | some ws =>
    match rowLine cols ws, rowLines ws data with
    | some header, some body =>
      some ([printBorder ws, header, printBorder ws] ++ body ++ [printBorder ws])
    | _, _ => none

/-! ## Vocabulary of the statements -/

/-- The table as the transaction sees it after the tuples `rs` were inserted, one after
the other, into the table `cur`. -/
def inserted {R S : Type} (store : R → S) (place : List S → S → List S) (cur : List S)
    (rs : List R) : List S :=
  (rs.map store).foldl place cur

/-- The engine accepts the tuples `rs` one after the other, starting from a table that
holds `cur`: every one of these inserts succeeds. -/
def Accepts {R S : Type} (store : R → S) (place : List S → S → List S)
    (exec : List S → R → Option String) : List S → List R → Prop
  | _, [] => True
  | cur, r :: rs => exec cur r = none ∧ Accepts store place exec (place cur (store r)) rs

/-- Whether the tuples are accepted can be computed. -/
instance decidableAccepts {R S : Type} (store : R → S) (place : List S → S → List S)
    (exec : List S → R → Option String) :
    (cur : List S) → (rs : List R) → Decidable (Accepts store place exec cur rs)
  | _, [] => .isTrue trivial
  | cur, r :: rs =>
    match decEq (exec cur r) none, decidableAccepts store place exec (place cur (store r)) rs with
    | .isTrue h1, .isTrue h2 => .isTrue ⟨h1, h2⟩
    | .isFalse h1, _ => .isFalse (fun h => h1 h.1)
    | _, .isFalse h2 => .isFalse (fun h => h2 h.2)

/-- The inserts of the movies tuples `rs` into the table `cur` all succeed. -/
abbrev AcceptsMovies (exec : List StoredMovie → MovieRow → Option String)
    (cur : List StoredMovie) (rs : List MovieRow) : Prop :=
  Accepts storeMovie (placeByKey (fun s => s.movie_id)) exec cur rs

/-- The inserts of the actors tuples `rs` into the table `cur` all succeed. -/
abbrev AcceptsActors (exec : List ActorRow → ActorRow → Option String)
    (cur : List ActorRow) (rs : List ActorRow) : Prop :=
  Accepts id (placeByKey (fun s => s.actor_id)) exec cur rs

/-- The inserts of the tuples `rs` into the genres or roles table `cur` all succeed. -/
abbrev AcceptsLast {R : Type} (exec : List R → R → Option String) (cur : List R)
    (rs : List R) : Prop :=
  Accepts id placeLast exec cur rs

/-- The movies table after the tuples `rs` were inserted into the table `cur`. -/
def moviesAfter (cur : List StoredMovie) (rs : List MovieRow) : List StoredMovie :=
  inserted storeMovie (placeByKey (fun s => s.movie_id)) cur rs

/-- The actors table after the tuples `rs` were inserted into the table `cur`. -/
def actorsAfter (cur : List ActorRow) (rs : List ActorRow) : List ActorRow :=
  inserted id (placeByKey (fun s => s.actor_id)) cur rs

/-- The tuples `rs` are the images of the rows `rows`, in order: the conversion of each
row succeeds and yields the tuple at the same position. -/
def Converts {R : Type} (args : List String → Except Panic R) (rows : List (List String))
    (rs : List R) : Prop :=
  List.Forall₂ (fun row r => args row = .ok r) rows rs

/-- The value `v` handed to the insert for the text `t` of an integer column is the one
`strconv.Atoi` returned: zero when Atoi reports a syntax error, and the largest or the
smallest 64-bit integer when it reports a range error. -/
def HandsInt (t : String) (v : Int) : Prop :=
  v = (Atoi t).1 ∧ ((Atoi t).2 = some .errSyn → v = 0) ∧
    ((Atoi t).2 = some .errRng → v = 2 ^ 63 - 1 ∨ v = -2 ^ 63)

/-- Whether a conversion gave a certain tuple can be computed. -/
instance decidableArgsEq {R : Type} [DecidableEq R] (x : Except Panic R) (r : R) :
    Decidable (x = .ok r) :=
  match x with
  | .ok y => if h : y = r then .isTrue (by rw [h]) else .isFalse (fun e => h (by injection e))
  | .error _ => .isFalse (fun e => by injection e)

/-- Whether the tuples are the images of the rows can be computed. -/
instance decidableConverts {R : Type} [DecidableEq R] (args : List String → Except Panic R)
    (rows : List (List String)) (rs : List R) : Decidable (Converts args rows rs) :=
  inferInstanceAs (Decidable (List.Forall₂ _ rows rs))

/-- Whether a value is the one handed over for a text can be computed. -/
instance decidableHandsInt (t : String) (v : Int) : Decidable (HandsInt t v) :=
  inferInstanceAs (Decidable (_ ∧ _))

/-- The value `v` handed to the insert for the text `t` of the rank column is the one
`strconv.ParseFloat` returned: zero when ParseFloat reports a syntax error, and plus or
minus infinity when it reports a range error. -/
def HandsFloat (t : String) (v : Float64) : Prop :=
  v = (ParseFloat t).1 ∧ ((ParseFloat t).2 = some .errSyn → v = 0) ∧
    ((ParseFloat t).2 = some .errRng → v = .inf false ∨ v = .inf true)

/-- Whether a value is the one handed over for a rank text can be computed. -/
instance decidableHandsFloat (t : String) (v : Float64) : Decidable (HandsFloat t v) :=
  inferInstanceAs (Decidable (_ ∧ _))

/-- The movies tuple `r` with the column fed by field `j` of the file set to zero:
field 0 is `movie_id`, field 2 is `year`, field 3 is `rank`. -/
def zeroField (j : Nat) (r : MovieRow) : MovieRow :=
  match j with
  | 0 => { r with movie_id := 0 }
  | 2 => { r with year := 0 }
  | 3 => { r with rank := 0 }
  | _ => r

/-- The lines of the output that mark the start of a load, in the order printed. -/
def startLines (out : List (List String)) : List (List String) :=
  out.filter (fun l =>
    l ∈ [startLine "movie", startLine "actor", startLine "genre", startLine "role"])

/-- A database file without objects. -/
def emptyCatalog (ρ : Type) : Catalog ρ := ⟨[], []⟩

/-- The names of the four tables of the schema. -/
def fourTables : List String := ["movies", "actors", "genres", "roles"]

/-- The three secondary indexes of the schema. -/
def threeIndexes : List IndexState :=
  [⟨"idx_genres_movie_id", "genres", "movie_id"⟩, ⟨"idx_roles_actor_id", "roles", "actor_id"⟩,
   ⟨"idx_roles_movie_id", "roles", "movie_id"⟩]

/-- The database that `Schema` leaves: the four tables as declared, without rows, and
the three indexes. -/
def rebuilt (ρ : Type) : Catalog ρ :=
  ⟨[⟨"movies", [⟨"movie_id", "INTEGER", true, false⟩, ⟨"name", "TEXT", false, true⟩,
      ⟨"year", "INTEGER", false, false⟩, ⟨"rank", "REAL", false, false⟩], [], []⟩,
    ⟨"actors", [⟨"actor_id", "INTEGER", true, false⟩, ⟨"first_name", "TEXT", false, false⟩,
      ⟨"last_name", "TEXT", false, false⟩, ⟨"gender", "TEXT", false, false⟩], [], []⟩,
    ⟨"genres", [⟨"movie_id", "INTEGER", false, false⟩, ⟨"genre", "TEXT", false, false⟩],
      [⟨"movie_id", "movies", "movie_id"⟩], []⟩,
    ⟨"roles", [⟨"actor_id", "INTEGER", false, false⟩, ⟨"movie_id", "INTEGER", false, false⟩,
      ⟨"role", "TEXT", false, false⟩],
      [⟨"actor_id", "actors", "actor_id"⟩, ⟨"movie_id", "movies", "movie_id"⟩], []⟩],
   threeIndexes⟩

/-- Every character of `s` is an ASCII character, hence one byte long. -/
def Ascii (s : String) : Prop := ∀ c ∈ s.data, c.toNat < 128

/-- Whether a text is ASCII can be computed. -/
instance decidableAscii (s : String) : Decidable (Ascii s) :=
  inferInstanceAs (Decidable (∀ c ∈ s.data, c.toNat < 128))

/-- The number `w` is the largest of `v0` and the members of `vals`. -/
def IsWidest (v0 : Nat) (vals : List Nat) (w : Nat) : Prop :=
  v0 ≤ w ∧ (∀ v ∈ vals, v ≤ w) ∧ (w = v0 ∨ w ∈ vals)

/-- Whether a number is the largest can be computed. -/
instance decidableIsWidest (v0 : Nat) (vals : List Nat) (w : Nat) :
    Decidable (IsWidest v0 vals w) :=
  inferInstanceAs (Decidable (_ ∧ _))

/-! ## Example data -/

/-- The header of the movies file. -/
def moviesHeader : List String := ["movie_id", "name", "year", "rank"]

/-- A movies file whose second data row repeats the key of the first. -/
def moviesDup : List (List String) :=
  [moviesHeader, ["1", "Test Movie", "2000", "7.5"], ["1", "Other Movie", "2001", "6.0"]]

/-- The four files of `TestCreateAndLoadMinimalCSV`. -/
def moviesMinimal : List (List String) :=
  [moviesHeader, ["1", "Test Movie", "2000", "7.5"]]

/-- The actors file of `TestCreateAndLoadMinimalCSV`. -/
def actorsMinimal : List (List String) :=
  [["actor_id", "first_name", "last_name", "gender"], ["10", "Jane", "Doe", "F"]]

/-- The genres file of `TestCreateAndLoadMinimalCSV`. -/
def genresMinimal : List (List String) :=
  [["movie_id", "genre"], ["1", "Drama"]]

/-- The roles file of `TestCreateAndLoadMinimalCSV`. -/
def rolesMinimal : List (List String) :=
  [["actor_id", "movie_id", "role"], ["10", "1", "Lead"]]

/-- A movies file with a row whose key is 0. -/
def moviesZeroKey : List (List String) :=
  [moviesHeader, ["0", "Test Movie", "2000", "7.5"], ["5", "Other Movie", "2001", "6.0"]]

/-- An actors file whose second data row repeats the key of the first. -/
def actorsDup : List (List String) :=
  [["actor_id", "first_name", "last_name", "gender"], ["10", "Jane", "Doe", "F"],
   ["10", "John", "Smith", "M"]]

/-- The four reads of a run in which the movies file is missing and the other three
files are the minimal ones. -/
def readsMoviesMissing : Reader → ReadResult
  | .movies => .failed "could not open data/aan520_w5a_movies2000After.csv: no such file"
  | .actors => .records actorsMinimal
  | .genres => .records genresMinimal
  | .roles => .records rolesMinimal

/-- A database left by an older run: two of the tables, with rows, and one index. -/
def priorExample : Catalog (List String) :=
  ⟨[⟨"movies", [⟨"movie_id", "INTEGER", true, false⟩], [], [["1"], ["2"]]⟩,
    ⟨"roles", [⟨"movie_id", "INTEGER", false, false⟩], [], [["1"]]⟩],
   [⟨"idx_roles_movie_id", "roles", "movie_id"⟩]⟩


/-- A movies file whose keys are not in increasing order. -/
def moviesUnordered : List (List String) :=
  [moviesHeader, ["5", "Other Movie", "2001", "6.0"], ["1", "Test Movie", "2000", "7.5"]]

/-- A movies file with the rank text `NaN`, which ParseFloat reads as a NaN. -/
def moviesNaN : List (List String) :=
  [moviesHeader, ["1", "Test Movie", "2000", "NaN"]]

/-- An engine for `movies` that accepts the inserts as SQLite does and whose commit
fails because the disk is full. -/
def sqliteMoviesDiskFull : TableEngine MovieRow StoredMovie where
  exec := sqliteMovies.exec
  commit _ := some "database or disk is full (13)"

/-- The value 7.5 as a `float64`. -/
def rank7_5 : Float64 := .finite false 15 (-1)

/-- The value 6.0 as a `float64`. -/
def rank6 : Float64 := .finite false 3 1
/-! # Properties -/

/-! ## The insert loop -/

theorem get?_after_header {α : Type} (hdr : α) (pre : List α) (row : α) (rest : List α) :
    (hdr :: (pre ++ row :: rest)).get? (pre.length + 1) = some row := by
  induction pre with
  | nil => rfl
  | cons a t ih => simpa using ih

section loop

variable {R S : Type} (what : String) (args : List String → Except Panic R)
  (store : R → S) (place : List S → S → List S) (exec : List S → R → Option String)

theorem inserted_nil (cur : List S) : inserted store place cur [] = cur := rfl

theorem inserted_cons (cur : List S) (r : R) (rs : List R) :
    inserted store place cur (r :: rs) = inserted store place (place cur (store r)) rs := rfl

theorem inserted_append (cur : List S) (rs ts : List R) :
    inserted store place cur (rs ++ ts)
      = inserted store place (inserted store place cur rs) ts := by
  simp [inserted, List.foldl_append]

theorem insertLoop_done (rows : List (List String)) (rs : List R)
    (hc : Converts args rows rs) :
    ∀ (i : Nat) (cur : List S) (pending : List R), Accepts store place exec cur rs →
      insertLoop what args store place exec (i + 1) rows cur pending
        = .done (inserted store place cur rs) (pending ++ rs) := by
  induction hc with
  | nil => intro i cur pending _; simp [insertLoop, inserted]
  | cons h _ ih =>
    intro i cur pending hacc
    obtain ⟨h1, h2⟩ := hacc
    simp only [insertLoop, Nat.succ_ne_zero, if_false, h, h1]
    rw [ih (i + 1) _ _ h2, inserted_cons]
    simp

theorem insertLoop_failed (pre : List (List String)) (rs : List R)
    (hc : Converts args pre rs) (row : List String) (rest : List (List String)) (r : R)
    (e : String) (hr : args row = .ok r) :
    ∀ (i : Nat) (cur : List S) (pending : List R), Accepts store place exec cur rs →
      exec (inserted store place cur rs) r = some e →
      insertLoop what args store place exec (i + 1) (pre ++ row :: rest) cur pending
        = .failed (errorf what (i + 1 + pre.length + 1) e) (pending ++ rs) r := by
  induction hc with
  | nil =>
    intro i cur pending _ he
    simp only [inserted_nil] at he
    simp [insertLoop, hr, he]
  | cons h _ ih =>
    intro i cur pending hacc he
    obtain ⟨h1, h2⟩ := hacc
    rw [List.cons_append]
    simp only [insertLoop, Nat.succ_ne_zero, if_false, h, h1]
    rw [ih (i + 1) _ _ h2 (by simpa [inserted_cons] using he)]
    simp [Nat.add_comm, Nat.add_left_comm, Nat.add_assoc]

theorem insertLoop_done_inv (rows : List (List String)) :
    ∀ (i : Nat) (cur : List S) (pending : List R) (C : List S) (P : List R),
      insertLoop what args store place exec (i + 1) rows cur pending = .done C P →
      ∃ rs, Converts args rows rs ∧ Accepts store place exec cur rs ∧
        C = inserted store place cur rs ∧ P = pending ++ rs := by
  induction rows with
  | nil =>
    intro i cur pending C P h
    simp only [insertLoop, LoopExit.done.injEq] at h
    exact ⟨[], List.Forall₂.nil, trivial, by simp [h.1, inserted], by simp [h.2]⟩
  | cons row rest ih =>
    intro i cur pending C P h
    simp only [insertLoop, Nat.succ_ne_zero, if_false] at h
    cases hr : args row with
    | error p => simp [hr] at h
    | ok r =>
      cases he : exec cur r with
      | some e => simp [hr, he] at h
      | none =>
        simp only [hr, he] at h
        obtain ⟨rs, h1, h2, h3, h4⟩ := ih (i + 1) _ _ C P h
        exact ⟨r :: rs, List.Forall₂.cons hr h1, ⟨he, h2⟩, by rw [h3, inserted_cons],
          by simp [h4]⟩

theorem insertLoop_failed_inv (rows : List (List String)) :
    ∀ (i : Nat) (cur : List S) (pending : List R) (msg : String) (P : List R) (r : R),
      insertLoop what args store place exec (i + 1) rows cur pending = .failed msg P r →
      ∃ rs, P = pending ++ rs := by
  induction rows with
  | nil => intro i cur pending msg P r h; simp [insertLoop] at h
  | cons row rest ih =>
    intro i cur pending msg P r h
    simp only [insertLoop, Nat.succ_ne_zero, if_false] at h
    cases hr : args row with
    | error p => simp [hr] at h
    | ok r1 =>
      cases he : exec cur r1 with
      | some e =>
        simp only [hr, he, LoopExit.failed.injEq] at h
        exact ⟨[], by simp [h.2.1]⟩
      | none =>
        simp only [hr, he] at h
        obtain ⟨rs, h1⟩ := ih (i + 1) _ _ msg P r h
        exact ⟨r1 :: rs, by simp [h1]⟩

theorem insertLoop_no_panic (rows : List (List String))
    (hrows : ∀ row ∈ rows, ∃ r, args row = .ok r) :
    ∀ (i : Nat) (cur : List S) (pending : List R) (p : Panic) (P : List R),
      insertLoop what args store place exec (i + 1) rows cur pending ≠ .panicked p P := by
  induction rows with
  | nil => intro i cur pending p P; simp [insertLoop]
  | cons row rest ih =>
    intro i cur pending p P
    obtain ⟨r, hr⟩ := hrows row (List.mem_cons_self _ _)
    simp only [insertLoop, Nat.succ_ne_zero, if_false, hr]
    cases he : exec cur r with
    | some e => simp
    | none =>
      simp only
      exact ih (fun x hx => hrows x (List.mem_cons_of_mem _ hx)) (i + 1) _ _ p P

end loop

section table

variable {R S : Type} (what : String) (args : List String → Except Panic R)
  (store : R → S) (place : List S → S → List S) (eng : TableEngine R S)

/-- A load whose data rows all convert and are all accepted returns what the commit
returns; when that is nil the table is the one the transaction built. -/
theorem writeTable_ok (title : String) (table : List S) (hdr : List String)
    (rows : List (List String)) (rs : List R) (hc : Converts args rows rs)
    (ha : Accepts store place eng.exec table rs)
    (hcommit : eng.commit (inserted store place table rs) = none) :
    writeTable title what args store place eng table (hdr :: rows) =
      { exit := .returned none, tx := .committed, table := inserted store place table rs,
        pending := [], execs := rs,
        out := [["Inserting " ++ what ++ "s..."],
          [title ++ " inserted:", toString ((((hdr :: rows).length : Nat) : Int) - 1)]] } := by
  have h := insertLoop_done what args store place eng.exec rows rs hc 0 table [] ha
  simp only [Nat.zero_add, List.nil_append] at h
  simp [writeTable, insertLoop, h, hcommit]

/-- A load whose data rows all convert and are all accepted but whose commit fails
returns the error of the commit and commits nothing. -/
theorem writeTable_commit_failed (title : String) (table : List S) (hdr : List String)
    (rows : List (List String)) (rs : List R) (hc : Converts args rows rs)
    (ha : Accepts store place eng.exec table rs) (e : String)
    (hcommit : eng.commit (inserted store place table rs) = some e) :
    writeTable title what args store place eng table (hdr :: rows) =
      { exit := .returned (some e), tx := .commitFailed, table := table,
        pending := rs, execs := rs,
        out := [["Inserting " ++ what ++ "s..."],
          [title ++ " inserted:", toString ((((hdr :: rows).length : Nat) : Int) - 1)]] } := by
  have h := insertLoop_done what args store place eng.exec rows rs hc 0 table [] ha
  simp only [Nat.zero_add, List.nil_append] at h
  simp [writeTable, insertLoop, h, hcommit]

/-- A load whose first refused insert is that of the row after `pre` returns the error
built for that row and has attempted nothing after it. -/
theorem writeTable_failed (title : String) (table : List S) (hdr : List String)
    (pre : List (List String)) (rs : List R) (hc : Converts args pre rs)
    (row : List String) (rest : List (List String)) (r : R) (e : String)
    (hr : args row = .ok r) (ha : Accepts store place eng.exec table rs)
    (he : eng.exec (inserted store place table rs) r = some e) :
    writeTable title what args store place eng table (hdr :: (pre ++ row :: rest)) =
      { exit := .returned (some (errorf what (pre.length + 1 + 1) e)), tx := .active,
        table := table, pending := rs, execs := rs ++ [r],
        out := [["Inserting " ++ what ++ "s..."]] } := by
  have h := insertLoop_failed what args store place eng.exec pre rs hc row rest r e hr 0
    table [] ha he
  simp only [Nat.zero_add, List.nil_append] at h
  simp [writeTable, insertLoop, h, Nat.add_comm]

/-- A load of rows that all convert does not panic. -/
theorem writeTable_no_panic (title : String) (table : List S) (data : List (List String))
    (hrows : ∀ row ∈ data.tail, ∃ r, args row = .ok r) (p : Panic) :
    (writeTable title what args store place eng table data).exit ≠ .panicked p := by
  cases data with
  | nil =>
    simp only [writeTable, insertLoop]
    cases hcm : eng.commit table <;> simp
  | cons hdr rows =>
    have h := insertLoop_no_panic what args store place eng.exec rows hrows 0 table []
    simp only [Nat.zero_add] at h
    simp only [writeTable, insertLoop, if_true]
    cases hl : insertLoop what args store place eng.exec 1 rows table [] with
    | done C P =>
      simp only
      cases hcm : eng.commit C <;> simp
    | failed msg P r => simp
    | panicked q P => exact absurd hl (h q P)

/-- A call that returns an error has committed nothing: the table is as it was and the
transaction is neither committed nor rolled back. -/
theorem writeTable_error (title : String) (table : List S) (data : List (List String))
    (e : String)
    (h : (writeTable title what args store place eng table data).exit
      = .returned (some e)) :
    (writeTable title what args store place eng table data).table = table ∧
    (writeTable title what args store place eng table data).tx ≠ .committed ∧
    (writeTable title what args store place eng table data).tx ≠ .rolledBack := by
  unfold writeTable at h ⊢
  cases hl : insertLoop what args store place eng.exec 0 data table [] with
  | done C P =>
    simp only [hl] at h ⊢
    cases hcm : eng.commit C with
    | none => simp [hcm] at h
    | some e1 => simp
  | failed msg P r => simp
  | panicked q P => simp [hl] at h

/-- With an engine whose commits succeed, a call that returns an error has left its
transaction active, the table as it was, and the tuples handed to the insert are the
pending ones followed by the refused one. -/
theorem writeTable_error_active (title : String) (table : List S)
    (data : List (List String)) (e : String) (hcommit : ∀ t, eng.commit t = none)
    (h : (writeTable title what args store place eng table data).exit
      = .returned (some e)) :
    (writeTable title what args store place eng table data).tx = .active ∧
    (writeTable title what args store place eng table data).table = table ∧
    ∃ r, (writeTable title what args store place eng table data).execs
      = (writeTable title what args store place eng table data).pending ++ [r] := by
  unfold writeTable at h ⊢
  cases hl : insertLoop what args store place eng.exec 0 data table [] with
  | done C P => simp [hl, hcommit C] at h
  | failed msg P r => simp
  | panicked q P => simp [hl] at h

end table

/-! ## The conversions -/

theorem movieArgs_total (row : List String) (h : 4 ≤ row.length) :
    ∃ r, movieArgs row = .ok r := by
  match row, h with
  | a :: b :: c :: d :: rest, _ => exact ⟨_, rfl⟩

theorem actorArgs_total (row : List String) (h : 4 ≤ row.length) :
    ∃ r, actorArgs row = .ok r := by
  match row, h with
  | a :: b :: c :: d :: rest, _ => exact ⟨_, rfl⟩

theorem genreArgs_total (row : List String) (h : 2 ≤ row.length) :
    ∃ r, genreArgs row = .ok r := by
  match row, h with
  | a :: b :: rest, _ => exact ⟨_, rfl⟩

theorem roleArgs_total (row : List String) (h : 3 ≤ row.length) :
    ∃ r, roleArgs row = .ok r := by
  match row, h with
  | a :: b :: c :: rest, _ => exact ⟨_, rfl⟩

/-! ## The order of the stored rows -/

section order

variable {S : Type} (key : S → Int)

theorem placeByKey_perm : ∀ (t : List S) (s : S), (placeByKey key t s).Perm (s :: t) := by
  intro t
  induction t with
  | nil => intro s; exact List.Perm.refl _
  | cons x xs ih =>
    intro s
    unfold placeByKey
    split_ifs with h
    · exact List.Perm.refl _
    · exact ((ih s).cons x).trans (List.Perm.swap s x xs)

theorem mem_placeByKey (t : List S) (s y : S) :
    y ∈ placeByKey key t s ↔ y = s ∨ y ∈ t := by
  rw [(placeByKey_perm key t s).mem_iff, List.mem_cons]

theorem placeByKey_sorted : ∀ (t : List S) (s : S),
    t.Pairwise (fun a b => key a ≤ key b) →
    (placeByKey key t s).Pairwise (fun a b => key a ≤ key b) := by
  intro t
  induction t with
  | nil => intro s _; simp [placeByKey]
  | cons x xs ih =>
    intro s hs
    rw [List.pairwise_cons] at hs
    unfold placeByKey
    split_ifs with h
    · refine List.Pairwise.cons ?_ (List.Pairwise.cons hs.1 hs.2)
      intro y hy
      rcases List.mem_cons.1 hy with rfl | hy
      · exact le_of_lt h
      · exact le_trans (le_of_lt h) (hs.1 y hy)
    · refine List.Pairwise.cons ?_ (ih s hs.2)
      intro y hy
      rcases (mem_placeByKey key xs s y).1 hy with rfl | hy
      · exact not_lt.1 h
      · exact hs.1 y hy

variable {R : Type} (store : R → S)

theorem inserted_byKey_perm : ∀ (rs : List R) (cur : List S),
    (inserted store (placeByKey key) cur rs).Perm (cur ++ rs.map store) := by
  intro rs
  induction rs with
  | nil => intro cur; simp [inserted]
  | cons r rs ih =>
    intro cur
    rw [inserted_cons]
    refine (ih _).trans ?_
    rw [List.map_cons]
    refine ((placeByKey_perm key cur (store r)).append_right _).trans ?_
    simpa using (@List.perm_middle S (store r) cur (rs.map store)).symm

theorem inserted_byKey_sorted : ∀ (rs : List R) (cur : List S),
    cur.Pairwise (fun a b => key a ≤ key b) →
    (inserted store (placeByKey key) cur rs).Pairwise (fun a b => key a ≤ key b) := by
  intro rs
  induction rs with
  | nil => intro cur h; exact h
  | cons r rs ih =>
    intro cur h
    rw [inserted_cons]
    exact ih _ (placeByKey_sorted key cur (store r) h)

theorem inserted_last : ∀ (rs : List S) (cur : List S),
    inserted id placeLast cur rs = cur ++ rs := by
  intro rs
  induction rs with
  | nil => intro cur; simp [inserted]
  | cons r rs ih =>
    intro cur
    rw [inserted_cons, ih]
    simp [placeLast]

end order

/-! ## The four writers -/

section writers

variable {R S : Type} (what : String) (args : List String → Except Panic R)
  (store : R → S) (place : List S → S → List S) (eng : TableEngine R S)

/-- A load whose data rows all convert and are all accepted returns what the commit
returns, has handed exactly their tuples to the insert, and when the commit succeeds it
leaves the table the transaction built. -/
theorem writeTable_loaded (title : String) (hdr : List String) (rows : List (List String))
    (rs : List R) (hc : Converts args rows rs) (ha : Accepts store place eng.exec [] rs) :
    (writeTable title what args store place eng [] (hdr :: rows)).exit
      = .returned (eng.commit (inserted store place [] rs)) ∧
    (writeTable title what args store place eng [] (hdr :: rows)).execs = rs ∧
    (eng.commit (inserted store place [] rs) = none →
      (writeTable title what args store place eng [] (hdr :: rows)).tx = .committed ∧
      (writeTable title what args store place eng [] (hdr :: rows)).table
        = inserted store place [] rs) := by
  cases hcm : eng.commit (inserted store place [] rs) with
  | none => simp [writeTable_ok what args store place eng title [] hdr rows rs hc ha hcm]
  | some e =>
    simp [writeTable_commit_failed what args store place eng title [] hdr rows rs hc ha e hcm]

end writers

/-- C3, amended: for each of the four writers and every header row followed by data rows
whose inserts all succeed, the load into the empty table hands to the insert exactly the
tuples of the data rows, in file order and never the header, and returns what
`tx.Commit()` returns.  When the commit succeeds too, the load returns no error and the
table holds exactly as many rows as there are data rows: the stored images of those
tuples (a NaN rank stored as NULL), held in the order of the keys in `movies` and
`actors` and in file order in `genres` and `roles`. -/
theorem load_leaves_stored_images_of_data_rows :
    (∀ (eng : TableEngine MovieRow StoredMovie) (hdr : List String)
        (rows : List (List String)) (rs : List MovieRow),
        Converts movieArgs rows rs → AcceptsMovies eng.exec [] rs →
        (writeMovies eng [] (hdr :: rows)).exit = .returned (eng.commit (moviesAfter [] rs)) ∧
        (writeMovies eng [] (hdr :: rows)).execs = rs ∧
        (eng.commit (moviesAfter [] rs) = none →
          (writeMovies eng [] (hdr :: rows)).exit = .returned none ∧
          (writeMovies eng [] (hdr :: rows)).tx = .committed ∧
          (writeMovies eng [] (hdr :: rows)).table.length = rows.length ∧
          (writeMovies eng [] (hdr :: rows)).table.Perm (rs.map storeMovie) ∧
          (writeMovies eng [] (hdr :: rows)).table.Pairwise
            (fun a b => a.movie_id ≤ b.movie_id))) ∧
    (∀ (eng : TableEngine ActorRow ActorRow) (hdr : List String)
        (rows : List (List String)) (rs : List ActorRow),
        Converts actorArgs rows rs → AcceptsActors eng.exec [] rs →
        (writeActors eng [] (hdr :: rows)).exit = .returned (eng.commit (actorsAfter [] rs)) ∧
        (writeActors eng [] (hdr :: rows)).execs = rs ∧
        (eng.commit (actorsAfter [] rs) = none →
          (writeActors eng [] (hdr :: rows)).exit = .returned none ∧
          (writeActors eng [] (hdr :: rows)).tx = .committed ∧
          (writeActors eng [] (hdr :: rows)).table.length = rows.length ∧
          (writeActors eng [] (hdr :: rows)).table.Perm rs ∧
          (writeActors eng [] (hdr :: rows)).table.Pairwise
            (fun a b => a.actor_id ≤ b.actor_id))) ∧
    (∀ (eng : TableEngine GenreRow GenreRow) (hdr : List String)
        (rows : List (List String)) (rs : List GenreRow),
        Converts genreArgs rows rs → AcceptsLast eng.exec [] rs →
        (writeGenres eng [] (hdr :: rows)).exit = .returned (eng.commit rs) ∧
        (writeGenres eng [] (hdr :: rows)).execs = rs ∧
        (eng.commit rs = none →
          (writeGenres eng [] (hdr :: rows)).exit = .returned none ∧
          (writeGenres eng [] (hdr :: rows)).tx = .committed ∧
          (writeGenres eng [] (hdr :: rows)).table.length = rows.length ∧
          (writeGenres eng [] (hdr :: rows)).table = rs)) ∧
    (∀ (eng : TableEngine RoleRow RoleRow) (hdr : List String)
        (rows : List (List String)) (rs : List RoleRow),
        Converts roleArgs rows rs → AcceptsLast eng.exec [] rs →
        (writeRoles eng [] (hdr :: rows)).exit = .returned (eng.commit rs) ∧
        (writeRoles eng [] (hdr :: rows)).execs = rs ∧
        (eng.commit rs = none →
          (writeRoles eng [] (hdr :: rows)).exit = .returned none ∧
          (writeRoles eng [] (hdr :: rows)).tx = .committed ∧
          (writeRoles eng [] (hdr :: rows)).table.length = rows.length ∧
          (writeRoles eng [] (hdr :: rows)).table = rs)) := by
  refine ⟨?_, ?_, ?_, ?_⟩ <;> intro eng hdr rows rs hc ha
  · obtain ⟨h1, h2, h3⟩ := writeTable_loaded "movie" movieArgs storeMovie
      (placeByKey (fun s => s.movie_id)) eng "Movies" hdr rows rs hc ha
    refine ⟨h1, h2, fun hcm => ?_⟩
    have hp : (moviesAfter [] rs).Perm (rs.map storeMovie) := by
      simpa using inserted_byKey_perm (fun s : StoredMovie => s.movie_id) storeMovie rs []
    have hl := hp.length_eq
    rw [List.length_map, List.Forall₂.length_eq hc.flip] at hl
    refine ⟨h1.trans (congrArg _ hcm), (h3 hcm).1, ?_, ?_, ?_⟩
    · show (writeTable _ _ _ _ _ _ _ _).table.length = _
      rw [(h3 hcm).2]; exact hl
    · show (writeTable _ _ _ _ _ _ _ _).table.Perm _
      rw [(h3 hcm).2]; exact hp
    · show (writeTable _ _ _ _ _ _ _ _).table.Pairwise _
      rw [(h3 hcm).2]
      exact inserted_byKey_sorted (fun s : StoredMovie => s.movie_id) storeMovie rs []
        List.Pairwise.nil
  · obtain ⟨h1, h2, h3⟩ := writeTable_loaded "actor" actorArgs id
      (placeByKey (fun s => s.actor_id)) eng "Actors" hdr rows rs hc ha
    refine ⟨h1, h2, fun hcm => ?_⟩
    have hp : (actorsAfter [] rs).Perm rs := by
      simpa using inserted_byKey_perm (fun s : ActorRow => s.actor_id) id rs []
    have hl := hp.length_eq
    rw [List.Forall₂.length_eq hc.flip] at hl
    refine ⟨h1.trans (congrArg _ hcm), (h3 hcm).1, ?_, ?_, ?_⟩
    · show (writeTable _ _ _ _ _ _ _ _).table.length = _
      rw [(h3 hcm).2]; exact hl
    · show (writeTable _ _ _ _ _ _ _ _).table.Perm _
      rw [(h3 hcm).2]; exact hp
    · show (writeTable _ _ _ _ _ _ _ _).table.Pairwise _
      rw [(h3 hcm).2]
      exact inserted_byKey_sorted (fun s : ActorRow => s.actor_id) id rs [] List.Pairwise.nil
  · obtain ⟨h1, h2, h3⟩ := writeTable_loaded "genre" genreArgs id placeLast eng "Genres"
      hdr rows rs hc ha
    rw [inserted_last, List.nil_append] at h1 h3
    refine ⟨h1, h2, fun hcm => ⟨h1.trans (congrArg _ hcm), (h3 hcm).1, ?_, (h3 hcm).2⟩⟩
    show (writeTable _ _ _ _ _ _ _ _).table.length = _
    rw [(h3 hcm).2, List.Forall₂.length_eq hc.flip]
  · obtain ⟨h1, h2, h3⟩ := writeTable_loaded "role" roleArgs id placeLast eng "Roles"
      hdr rows rs hc ha
    rw [inserted_last, List.nil_append] at h1 h3
    refine ⟨h1, h2, fun hcm => ⟨h1.trans (congrArg _ hcm), (h3 hcm).1, ?_, (h3 hcm).2⟩⟩
    show (writeTable _ _ _ _ _ _ _ _).table.length = _
    rw [(h3 hcm).2, List.Forall₂.length_eq hc.flip]

/-- The minimal movies file of the repository test and a genres file of two rows: the
loads return no error and leave one and two rows. -/
theorem load_leaves_stored_images_of_data_rows_witness :
    ((writeMovies sqliteMovies [] moviesMinimal).exit = .returned none ∧
      (writeMovies sqliteMovies [] moviesMinimal).tx = .committed ∧
      (writeMovies sqliteMovies [] moviesMinimal).table.length = 1 ∧
      (writeMovies sqliteMovies [] moviesMinimal).table.Perm
        ([⟨1, "Test Movie", 2000, rank7_5⟩].map storeMovie) ∧
      (writeMovies sqliteMovies [] moviesMinimal).table.Pairwise
        (fun a b => a.movie_id ≤ b.movie_id)) ∧
    (writeGenres sqliteGenres [] [["movie_id", "genre"], ["5", "Drama"], ["1", "Comedy"]]).table
      = [⟨5, "Drama"⟩, ⟨1, "Comedy"⟩] :=
  ⟨(load_leaves_stored_images_of_data_rows.1 sqliteMovies moviesHeader
      [["1", "Test Movie", "2000", "7.5"]] [⟨1, "Test Movie", 2000, rank7_5⟩]
      (by decide) (by decide)).2.2 rfl,
   ((load_leaves_stored_images_of_data_rows.2.2.1 sqliteGenres ["movie_id", "genre"]
      [["5", "Drama"], ["1", "Comedy"]] [⟨5, "Drama"⟩, ⟨1, "Comedy"⟩]
      (by decide) (by decide)).2.2 rfl).2.2.2⟩

/-- C3 as stated fails in three ways.  The movies file with the keys 5 and 1, whose
inserts succeed, leaves the rows in the order 1, 5 and not in file order.  The rank text
`NaN` is converted to a NaN and the row is stored with NULL there, which is not the
converted value.  With a commit that fails the inserts of the minimal file all succeed
and yet the load returns an error and the table stays empty. -/
theorem stored_rows_are_not_the_images_in_file_order :
    ((writeMovies sqliteMovies [] moviesUnordered).exit = .returned none ∧
      (writeMovies sqliteMovies [] moviesUnordered).execs
        = [⟨5, "Other Movie", 2001, rank6⟩, ⟨1, "Test Movie", 2000, rank7_5⟩] ∧
      (writeMovies sqliteMovies [] moviesUnordered).table
        = [⟨1, "Test Movie", 2000, some rank7_5⟩, ⟨5, "Other Movie", 2001, some rank6⟩]) ∧
    ((writeMovies sqliteMovies [] moviesNaN).exit = .returned none ∧
      (writeMovies sqliteMovies [] moviesNaN).execs = [⟨1, "Test Movie", 2000, .nan⟩] ∧
      (writeMovies sqliteMovies [] moviesNaN).table = [⟨1, "Test Movie", 2000, none⟩]) ∧
    (AcceptsMovies sqliteMoviesDiskFull.exec [] [⟨1, "Test Movie", 2000, rank7_5⟩] ∧
      (writeMovies sqliteMoviesDiskFull [] moviesMinimal).execs
        = [⟨1, "Test Movie", 2000, rank7_5⟩] ∧
      (writeMovies sqliteMoviesDiskFull [] moviesMinimal).exit
        = .returned (some "database or disk is full (13)") ∧
      (writeMovies sqliteMoviesDiskFull [] moviesMinimal).table = []) := by
  decide

/-- C8: for each of the four writers, when the rows before index `i` were inserted and the
insert of the row at index `i` (the header being index 0) is refused with error `e`, the
call returns the error "insert <table> row <i+1>: <e>", the tuples handed to the insert
are those of rows 1 to `i` and nothing of what follows row `i` is attempted. -/
theorem insert_error_reports_first_failing_row :
    (∀ (eng : TableEngine MovieRow StoredMovie) (table : List StoredMovie)
        (hdr : List String) (pre : List (List String)) (rs : List MovieRow)
        (row : List String) (rest : List (List String)) (r : MovieRow) (e : String)
        (i : Nat), i = pre.length + 1 →
        Converts movieArgs pre rs → AcceptsMovies eng.exec table rs →
        movieArgs row = .ok r → eng.exec (moviesAfter table rs) r = some e →
        (hdr :: (pre ++ row :: rest)).get? i = some row ∧
        (writeMovies eng table (hdr :: (pre ++ row :: rest))).exit
          = .returned (some ("insert movie row " ++ toString (i + 1) ++ ": " ++ e)) ∧
        (writeMovies eng table (hdr :: (pre ++ row :: rest))).execs = rs ++ [r]) ∧
    (∀ (eng : TableEngine ActorRow ActorRow) (table : List ActorRow)
        (hdr : List String) (pre : List (List String)) (rs : List ActorRow)
        (row : List String) (rest : List (List String)) (r : ActorRow) (e : String)
        (i : Nat), i = pre.length + 1 →
        Converts actorArgs pre rs → AcceptsActors eng.exec table rs →
        actorArgs row = .ok r → eng.exec (actorsAfter table rs) r = some e →
        (hdr :: (pre ++ row :: rest)).get? i = some row ∧
        (writeActors eng table (hdr :: (pre ++ row :: rest))).exit
          = .returned (some ("insert actor row " ++ toString (i + 1) ++ ": " ++ e)) ∧
        (writeActors eng table (hdr :: (pre ++ row :: rest))).execs = rs ++ [r]) ∧
    (∀ (eng : TableEngine GenreRow GenreRow) (table : List GenreRow)
        (hdr : List String) (pre : List (List String)) (rs : List GenreRow)
        (row : List String) (rest : List (List String)) (r : GenreRow) (e : String)
        (i : Nat), i = pre.length + 1 →
        Converts genreArgs pre rs → AcceptsLast eng.exec table rs →
        genreArgs row = .ok r → eng.exec (table ++ rs) r = some e →
        (hdr :: (pre ++ row :: rest)).get? i = some row ∧
        (writeGenres eng table (hdr :: (pre ++ row :: rest))).exit
          = .returned (some ("insert genre row " ++ toString (i + 1) ++ ": " ++ e)) ∧
        (writeGenres eng table (hdr :: (pre ++ row :: rest))).execs = rs ++ [r]) ∧
    (∀ (eng : TableEngine RoleRow RoleRow) (table : List RoleRow)
        (hdr : List String) (pre : List (List String)) (rs : List RoleRow)
        (row : List String) (rest : List (List String)) (r : RoleRow) (e : String)
        (i : Nat), i = pre.length + 1 →
        Converts roleArgs pre rs → AcceptsLast eng.exec table rs →
        roleArgs row = .ok r → eng.exec (table ++ rs) r = some e →
        (hdr :: (pre ++ row :: rest)).get? i = some row ∧
        (writeRoles eng table (hdr :: (pre ++ row :: rest))).exit
          = .returned (some ("insert role row " ++ toString (i + 1) ++ ": " ++ e)) ∧
        (writeRoles eng table (hdr :: (pre ++ row :: rest))).execs = rs ++ [r]) := by
  refine ⟨?_, ?_, ?_, ?_⟩ <;> intro eng table hdr pre rs row rest r e i hi hc ha hr he <;>
    subst hi <;> refine ⟨get?_after_header hdr pre row rest, ?_⟩
  · simp [writeMovies, errorf, writeTable_failed "movie" movieArgs storeMovie
      (placeByKey (fun s => s.movie_id)) eng "Movies" table hdr pre rs hc row rest r e hr
      ha he]
  · simp [writeActors, errorf, writeTable_failed "actor" actorArgs id
      (placeByKey (fun s => s.actor_id)) eng "Actors" table hdr pre rs hc row rest r e hr
      ha he]
  · simp [writeGenres, errorf, writeTable_failed "genre" genreArgs id placeLast eng "Genres"
      table hdr pre rs hc row rest r e hr ha (by rw [inserted_last]; exact he)]
  · simp [writeRoles, errorf, writeTable_failed "role" roleArgs id placeLast eng "Roles"
      table hdr pre rs hc row rest r e hr ha (by rw [inserted_last]; exact he)]

/-- The duplicate key in the third line of `moviesDup` is reported as row 3, and the two
data rows are the only tuples handed to the insert. -/
theorem insert_error_reports_first_failing_row_witness :
    (writeMovies sqliteMovies [] moviesDup).exit
      = .returned (some ("insert movie row " ++ toString (2 + 1) ++ ": "
          ++ "constraint failed: UNIQUE constraint failed: movies.movie_id (1555)")) ∧
    (writeMovies sqliteMovies [] moviesDup).execs
      = [⟨1, "Test Movie", 2000, rank7_5⟩] ++ [⟨1, "Other Movie", 2001, rank6⟩] :=
  (insert_error_reports_first_failing_row.1 sqliteMovies [] moviesHeader
    [["1", "Test Movie", "2000", "7.5"]] [⟨1, "Test Movie", 2000, rank7_5⟩]
    ["1", "Other Movie", "2001", "6.0"] [] ⟨1, "Other Movie", 2001, rank6⟩
    "constraint failed: UNIQUE constraint failed: movies.movie_id (1555)" 2 rfl
    (by decide) (by decide) (by decide) (by decide)).2

/-- C10, amended: for each of the four writers, when every data row has at least as many
fields as the insert statement has columns (four for movies and actors, two for genres,
three for roles), no index expression is out of range and the load does not panic,
whatever the engine answers and whatever the header row holds. -/
theorem no_panic_when_rows_have_all_columns :
    (∀ (eng : TableEngine MovieRow StoredMovie) (table : List StoredMovie)
        (data : List (List String)), (∀ row ∈ data.tail, 4 ≤ row.length) →
        ∀ p, (writeMovies eng table data).exit ≠ .panicked p) ∧
    (∀ (eng : TableEngine ActorRow ActorRow) (table : List ActorRow)
        (data : List (List String)), (∀ row ∈ data.tail, 4 ≤ row.length) →
        ∀ p, (writeActors eng table data).exit ≠ .panicked p) ∧
    (∀ (eng : TableEngine GenreRow GenreRow) (table : List GenreRow)
        (data : List (List String)), (∀ row ∈ data.tail, 2 ≤ row.length) →
        ∀ p, (writeGenres eng table data).exit ≠ .panicked p) ∧
    (∀ (eng : TableEngine RoleRow RoleRow) (table : List RoleRow)
        (data : List (List String)), (∀ row ∈ data.tail, 3 ≤ row.length) →
        ∀ p, (writeRoles eng table data).exit ≠ .panicked p) := by
  refine ⟨?_, ?_, ?_, ?_⟩ <;> intro eng table data h p
  · exact writeTable_no_panic "movie" movieArgs storeMovie _ eng "Movies" table data
      (fun row hrow => movieArgs_total row (h row hrow)) p
  · exact writeTable_no_panic "actor" actorArgs id _ eng "Actors" table data
      (fun row hrow => actorArgs_total row (h row hrow)) p
  · exact writeTable_no_panic "genre" genreArgs id _ eng "Genres" table data
      (fun row hrow => genreArgs_total row (h row hrow)) p
  · exact writeTable_no_panic "role" roleArgs id _ eng "Roles" table data
      (fun row hrow => roleArgs_total row (h row hrow)) p

/-- The load of `moviesDup`, whose rows have four fields, does not panic. -/
theorem no_panic_when_rows_have_all_columns_witness :
    (∀ row ∈ moviesDup.tail, 4 ≤ row.length) ∧
    (writeMovies sqliteMovies [] moviesDup).exit ≠ .panicked ⟨2, 1⟩ :=
  ⟨by decide,
   no_panic_when_rows_have_all_columns.1 sqliteMovies [] moviesDup (by decide) ⟨2, 1⟩⟩

/-- C10 as stated fails: in a movies row set whose rows all have as many fields as the
header, namely one, `row[2]` is out of range and `writeMovies` panics. -/
theorem equal_field_counts_still_panic :
    (∀ row ∈ [["movie_id"], ["1"]], row.length = (["movie_id"] : List String).length) ∧
    (writeMovies sqliteMovies [] [["movie_id"], ["1"]]).exit = .panicked ⟨2, 1⟩ ∧
    (writeGenres sqliteGenres [] [["movie_id"], ["1"]]).exit = .panicked ⟨1, 1⟩ := by
  decide

/-- C2, what the code does: for each of the four writers, when the rows before a data row
were inserted and the insert of that row is refused, the call returns an error and
leaves its transaction active (the source calls neither `Rollback` nor `Commit` on that
path); the committed contents of the table are what they were before the call and the
tuples inserted earlier in the call stay pending in the open transaction.  Whatever the
engine answers, a call that returns an error leaves the table unchanged and its
transaction neither committed nor rolled back.  With an engine whose commits succeed
every call that returns an error has its transaction active, the table unchanged, and
the tuples handed to the insert are the pending ones followed by the refused one. -/
theorem write_error_leaves_transaction_active :
    ((∀ (eng : TableEngine MovieRow StoredMovie) (table : List StoredMovie)
        (hdr : List String) (pre : List (List String)) (rs : List MovieRow)
        (row : List String) (rest : List (List String)) (r : MovieRow) (e : String),
        Converts movieArgs pre rs → AcceptsMovies eng.exec table rs →
        movieArgs row = .ok r → eng.exec (moviesAfter table rs) r = some e →
        (∃ msg, (writeMovies eng table (hdr :: (pre ++ row :: rest))).exit
          = .returned (some msg)) ∧
        (writeMovies eng table (hdr :: (pre ++ row :: rest))).tx = .active ∧
        (writeMovies eng table (hdr :: (pre ++ row :: rest))).table = table ∧
        (writeMovies eng table (hdr :: (pre ++ row :: rest))).pending = rs) ∧
      (∀ (eng : TableEngine MovieRow StoredMovie) (table : List StoredMovie)
        (data : List (List String)) (e : String),
        (writeMovies eng table data).exit = .returned (some e) →
        (writeMovies eng table data).table = table ∧
        (writeMovies eng table data).tx ≠ .committed ∧
        (writeMovies eng table data).tx ≠ .rolledBack) ∧
      (∀ (eng : TableEngine MovieRow StoredMovie) (table : List StoredMovie)
        (data : List (List String)) (e : String), (∀ t, eng.commit t = none) →
        (writeMovies eng table data).exit = .returned (some e) →
        (writeMovies eng table data).tx = .active ∧
        (writeMovies eng table data).table = table ∧
        ∃ r, (writeMovies eng table data).execs
          = (writeMovies eng table data).pending ++ [r])) ∧
    ((∀ (eng : TableEngine ActorRow ActorRow) (table : List ActorRow)
        (hdr : List String) (pre : List (List String)) (rs : List ActorRow)
        (row : List String) (rest : List (List String)) (r : ActorRow) (e : String),
        Converts actorArgs pre rs → AcceptsActors eng.exec table rs →
        actorArgs row = .ok r → eng.exec (actorsAfter table rs) r = some e →
        (∃ msg, (writeActors eng table (hdr :: (pre ++ row :: rest))).exit
          = .returned (some msg)) ∧
        (writeActors eng table (hdr :: (pre ++ row :: rest))).tx = .active ∧
        (writeActors eng table (hdr :: (pre ++ row :: rest))).table = table ∧
        (writeActors eng table (hdr :: (pre ++ row :: rest))).pending = rs) ∧
      (∀ (eng : TableEngine ActorRow ActorRow) (table : List ActorRow)
        (data : List (List String)) (e : String),
        (writeActors eng table data).exit = .returned (some e) →
        (writeActors eng table data).table = table ∧
        (writeActors eng table data).tx ≠ .committed ∧
        (writeActors eng table data).tx ≠ .rolledBack) ∧
      (∀ (eng : TableEngine ActorRow ActorRow) (table : List ActorRow)
        (data : List (List String)) (e : String), (∀ t, eng.commit t = none) →
        (writeActors eng table data).exit = .returned (some e) →
        (writeActors eng table data).tx = .active ∧
        (writeActors eng table data).table = table ∧
        ∃ r, (writeActors eng table data).execs
          = (writeActors eng table data).pending ++ [r])) ∧
    ((∀ (eng : TableEngine GenreRow GenreRow) (table : List GenreRow)
        (hdr : List String) (pre : List (List String)) (rs : List GenreRow)
        (row : List String) (rest : List (List String)) (r : GenreRow) (e : String),
        Converts genreArgs pre rs → AcceptsLast eng.exec table rs →
        genreArgs row = .ok r → eng.exec (table ++ rs) r = some e →
        (∃ msg, (writeGenres eng table (hdr :: (pre ++ row :: rest))).exit
          = .returned (some msg)) ∧
        (writeGenres eng table (hdr :: (pre ++ row :: rest))).tx = .active ∧
        (writeGenres eng table (hdr :: (pre ++ row :: rest))).table = table ∧
        (writeGenres eng table (hdr :: (pre ++ row :: rest))).pending = rs) ∧
      (∀ (eng : TableEngine GenreRow GenreRow) (table : List GenreRow)
        (data : List (List String)) (e : String),
        (writeGenres eng table data).exit = .returned (some e) →
        (writeGenres eng table data).table = table ∧
        (writeGenres eng table data).tx ≠ .committed ∧
        (writeGenres eng table data).tx ≠ .rolledBack) ∧
      (∀ (eng : TableEngine GenreRow GenreRow) (table : List GenreRow)
        (data : List (List String)) (e : String), (∀ t, eng.commit t = none) →
        (writeGenres eng table data).exit = .returned (some e) →
        (writeGenres eng table data).tx = .active ∧
        (writeGenres eng table data).table = table ∧
        ∃ r, (writeGenres eng table data).execs
          = (writeGenres eng table data).pending ++ [r])) ∧
    ((∀ (eng : TableEngine RoleRow RoleRow) (table : List RoleRow)
        (hdr : List String) (pre : List (List String)) (rs : List RoleRow)
        (row : List String) (rest : List (List String)) (r : RoleRow) (e : String),
        Converts roleArgs pre rs → AcceptsLast eng.exec table rs →
        roleArgs row = .ok r → eng.exec (table ++ rs) r = some e →
        (∃ msg, (writeRoles eng table (hdr :: (pre ++ row :: rest))).exit
          = .returned (some msg)) ∧
        (writeRoles eng table (hdr :: (pre ++ row :: rest))).tx = .active ∧
        (writeRoles eng table (hdr :: (pre ++ row :: rest))).table = table ∧
        (writeRoles eng table (hdr :: (pre ++ row :: rest))).pending = rs) ∧
      (∀ (eng : TableEngine RoleRow RoleRow) (table : List RoleRow)
        (data : List (List String)) (e : String),
        (writeRoles eng table data).exit = .returned (some e) →
        (writeRoles eng table data).table = table ∧
        (writeRoles eng table data).tx ≠ .committed ∧
        (writeRoles eng table data).tx ≠ .rolledBack) ∧
      (∀ (eng : TableEngine RoleRow RoleRow) (table : List RoleRow)
        (data : List (List String)) (e : String), (∀ t, eng.commit t = none) →
        (writeRoles eng table data).exit = .returned (some e) →
        (writeRoles eng table data).tx = .active ∧
        (writeRoles eng table data).table = table ∧
        ∃ r, (writeRoles eng table data).execs
          = (writeRoles eng table data).pending ++ [r])) := by
  refine ⟨⟨?_, ?_, ?_⟩, ⟨?_, ?_, ?_⟩, ⟨?_, ?_, ?_⟩, ⟨?_, ?_, ?_⟩⟩
  · intro eng table hdr pre rs row rest r e hc ha hr he
    simp [writeMovies, writeTable_failed "movie" movieArgs storeMovie
      (placeByKey (fun s => s.movie_id)) eng "Movies" table hdr pre rs hc row rest r e hr
      ha he]
  · intro eng table data e h
    exact writeTable_error "movie" movieArgs storeMovie _ eng "Movies" table data e h
  · intro eng table data e hcm h
    exact writeTable_error_active "movie" movieArgs storeMovie _ eng "Movies" table data e
      hcm h
  · intro eng table hdr pre rs row rest r e hc ha hr he
    simp [writeActors, writeTable_failed "actor" actorArgs id
      (placeByKey (fun s => s.actor_id)) eng "Actors" table hdr pre rs hc row rest r e hr
      ha he]
  · intro eng table data e h
    exact writeTable_error "actor" actorArgs id _ eng "Actors" table data e h
  · intro eng table data e hcm h
    exact writeTable_error_active "actor" actorArgs id _ eng "Actors" table data e hcm h
  · intro eng table hdr pre rs row rest r e hc ha hr he
    simp [writeGenres, writeTable_failed "genre" genreArgs id placeLast eng "Genres" table
      hdr pre rs hc row rest r e hr ha (by rw [inserted_last]; exact he)]
  · intro eng table data e h
    exact writeTable_error "genre" genreArgs id _ eng "Genres" table data e h
  · intro eng table data e hcm h
    exact writeTable_error_active "genre" genreArgs id _ eng "Genres" table data e hcm h
  · intro eng table hdr pre rs row rest r e hc ha hr he
    simp [writeRoles, writeTable_failed "role" roleArgs id placeLast eng "Roles" table
      hdr pre rs hc row rest r e hr ha (by rw [inserted_last]; exact he)]
  · intro eng table data e h
    exact writeTable_error "role" roleArgs id _ eng "Roles" table data e h
  · intro eng table data e hcm h
    exact writeTable_error_active "role" roleArgs id _ eng "Roles" table data e hcm h

/-- The load of `moviesDup` returns the error for row 3 with its transaction still
active and the first data row pending in it, neither committed nor rolled back. -/
theorem write_error_leaves_transaction_active_witness :
    (writeMovies sqliteMovies [] moviesDup).exit
      = .returned (some ("insert movie row 3: "
          ++ "constraint failed: UNIQUE constraint failed: movies.movie_id (1555)")) ∧
    (writeMovies sqliteMovies [] moviesDup).tx = .active ∧
    (writeMovies sqliteMovies [] moviesDup).tx ≠ .rolledBack ∧
    (writeMovies sqliteMovies [] moviesDup).table = [] ∧
    (writeMovies sqliteMovies [] moviesDup).pending = [⟨1, "Test Movie", 2000, rank7_5⟩] :=
  ⟨by decide,
   (write_error_leaves_transaction_active.1.2.2 sqliteMovies [] moviesDup
     ("insert movie row 3: "
       ++ "constraint failed: UNIQUE constraint failed: movies.movie_id (1555)")
     (fun _ => rfl) (by decide)).1,
   (write_error_leaves_transaction_active.1.2.1 sqliteMovies [] moviesDup
     ("insert movie row 3: "
       ++ "constraint failed: UNIQUE constraint failed: movies.movie_id (1555)")
     (by decide)).2.2,
   (write_error_leaves_transaction_active.1.1 sqliteMovies [] moviesHeader
     [["1", "Test Movie", "2000", "7.5"]] [⟨1, "Test Movie", 2000, rank7_5⟩]
     ["1", "Other Movie", "2001", "6.0"] [] ⟨1, "Other Movie", 2001, rank6⟩
     "constraint failed: UNIQUE constraint failed: movies.movie_id (1555)"
     (by decide) (by decide) (by decide) (by decide)).2.2.1,
   (write_error_leaves_transaction_active.1.1 sqliteMovies [] moviesHeader
     [["1", "Test Movie", "2000", "7.5"]] [⟨1, "Test Movie", 2000, rank7_5⟩]
     ["1", "Other Movie", "2001", "6.0"] [] ⟨1, "Other Movie", 2001, rank6⟩
     "constraint failed: UNIQUE constraint failed: movies.movie_id (1555)"
     (by decide) (by decide) (by decide) (by decide)).2.2.2⟩

/-! ## strconv -/

theorem ParseInt_errSyn (b : List Nat) (h : (ParseInt b).2 = some .errSyn) :
    (ParseInt b).1 = 0 := by
  unfold ParseInt at h ⊢
  by_cases h1 : b = []
  · simp [h1]
  · simp only [h1, if_false] at h ⊢
    generalize ParseUint (if b.head? = some 43 ∨ b.head? = some 45 then b.tail else b) = p
      at h ⊢
    rcases p with ⟨un, _ | _ | _⟩
    · simp only at h ⊢
      split_ifs at h ⊢ <;> simp_all
    · simp
    · simp only at h ⊢
      split_ifs at h ⊢ <;> simp_all

theorem ParseInt_errRng (b : List Nat) (h : (ParseInt b).2 = some .errRng) :
    (ParseInt b).1 = 2 ^ 63 - 1 ∨ (ParseInt b).1 = -2 ^ 63 := by
  unfold ParseInt at h ⊢
  by_cases h1 : b = []
  · simp [h1] at h
  · simp only [h1, if_false] at h ⊢
    generalize ParseUint (if b.head? = some 43 ∨ b.head? = some 45 then b.tail else b) = p
      at h ⊢
    rcases p with ⟨un, _ | _ | _⟩
    · simp only at h ⊢
      split_ifs at h ⊢ <;> simp_all [intSize]
    · simp at h
    · simp only at h ⊢
      split_ifs at h ⊢ <;> simp_all [intSize]

theorem Atoi_errSyn (s : String) (h : (Atoi s).2 = some .errSyn) : (Atoi s).1 = 0 := by
  unfold Atoi at h ⊢
  simp only at h ⊢
  by_cases h1 : 0 < (goBytes s).length ∧ (goBytes s).length < 19
  · simp only [h1, and_self, if_true] at h ⊢
    split_ifs at h ⊢ <;>
      first
      | rfl
      | (generalize atoiFast _ 0 = q at h ⊢; cases q <;> simp_all)
  · simp only [h1, if_false] at h ⊢
    exact ParseInt_errSyn _ h

theorem Atoi_errRng (s : String) (h : (Atoi s).2 = some .errRng) :
    (Atoi s).1 = 2 ^ 63 - 1 ∨ (Atoi s).1 = -2 ^ 63 := by
  unfold Atoi at h ⊢
  simp only at h ⊢
  by_cases h1 : 0 < (goBytes s).length ∧ (goBytes s).length < 19
  · simp only [h1, and_self, if_true] at h ⊢
    split_ifs at h ⊢ <;>
      first
      | (exact absurd h (by simp))
      | (generalize atoiFast _ 0 = q at h ⊢; cases q <;> simp_all)
  · simp only [h1, if_false] at h ⊢
    exact ParseInt_errRng _ h

/-! ## Lists -/

theorem forall₂_get? {α β : Type} {P : α → β → Prop} {l1 : List α} {l2 : List β}
    (h : List.Forall₂ P l1 l2) :
    ∀ (k : Nat) (a : α), l1.get? k = some a → ∃ b, l2.get? k = some b ∧ P a b := by
  induction h with
  | nil => intro k a hk; simp at hk
  | cons hab _ ih =>
    intro k a hk
    cases k with
    | zero =>
      simp only [List.get?_cons_zero, Option.some.injEq] at hk
      subst hk
      exact ⟨_, rfl, hab⟩
    | succ k => exact ih k a (by simpa using hk)

theorem forall₂_get?_right {α β : Type} {P : α → β → Prop} {l1 : List α} {l2 : List β}
    (h : List.Forall₂ P l1 l2) :
    ∀ (k : Nat) (b : β), l2.get? k = some b → ∃ a, l1.get? k = some a ∧ P a b := by
  induction h with
  | nil => intro k a hk; simp at hk
  | cons hab _ ih =>
    intro k a hk
    cases k with
    | zero =>
      simp only [List.get?_cons_zero, Option.some.injEq] at hk
      subst hk
      exact ⟨_, rfl, hab⟩
    | succ k => exact ih k a (by simpa using hk)

theorem forall₂_set {α β : Type} {P : α → β → Prop} {l1 : List α} {l2 : List β}
    (h : List.Forall₂ P l1 l2) (a : α) (b : β) (hab : P a b) :
    ∀ k : Nat, List.Forall₂ P (l1.set k a) (l2.set k b) := by
  induction h with
  | nil => intro k; simp
  | cons hxy hrest ih =>
    intro k
    cases k with
    | zero => exact List.Forall₂.cons hab hrest
    | succ k => exact List.Forall₂.cons hxy (ih k)

theorem nodup_set {α : Type} (v : α) :
    ∀ (l : List α) (k : Nat), l.Nodup →
      (∀ i x, i ≠ k → l.get? i = some x → x ≠ v) → (l.set k v).Nodup := by
  intro l
  induction l with
  | nil => intro k _ _; simp
  | cons a t ih =>
    intro k hnd hne
    rw [List.nodup_cons] at hnd
    cases k with
    | zero =>
      rw [List.set_cons_zero, List.nodup_cons]
      refine ⟨?_, hnd.2⟩
      intro hmem
      obtain ⟨i, hi⟩ := List.get?_of_mem hmem
      exact hne (i + 1) v (by simp) (by simpa using hi) rfl
    | succ k =>
      rw [List.set_cons_succ, List.nodup_cons]
      refine ⟨?_, ih k hnd.2 (fun i x hik hx => hne (i + 1) x (by simpa using hik)
        (by simpa using hx))⟩
      intro hmem
      rcases List.mem_or_eq_of_mem_set hmem with h1 | h1
      · exact hnd.1 h1
      · exact hne 0 a (by simp) (by simp) h1

/-! ### ParseFloat -/

theorem nearestFloat64_overflow (neg : Bool) (num den : Nat)
    (h : (nearestFloat64 neg num den).2 = true) :
    (nearestFloat64 neg num den).1 = .inf neg := by
  unfold nearestFloat64 at h ⊢
  simp only at h ⊢
  split_ifs at h ⊢ <;> simp_all

theorem scanValue_overflow (sc : Scan) (h : (scanValue sc).2 = true) :
    (scanValue sc).1 = .inf sc.neg := by
  unfold scanValue at h ⊢
  simp only at h ⊢
  split_ifs at h ⊢
  all_goals first
    | exact nearestFloat64_overflow _ _ _ h
    | rfl

theorem ParseFloat_errSyn (s : String) (h : (ParseFloat s).2 = some .errSyn) :
    (ParseFloat s).1 = 0 := by
  unfold ParseFloat at h ⊢
  simp only at h ⊢
  generalize special (goBytes s) = sp at h ⊢
  rcases sp with _ | ⟨v, n⟩
  · simp only at h ⊢
    generalize readFloat (goBytes s) = rf at h ⊢
    rcases rf with _ | sc
    · rfl
    · simp only at h ⊢
      split_ifs at h ⊢
      all_goals simp_all
  · simp only at h ⊢
    split_ifs at h ⊢
    all_goals simp_all

theorem ParseFloat_errRng (s : String) (h : (ParseFloat s).2 = some .errRng) :
    (ParseFloat s).1 = .inf false ∨ (ParseFloat s).1 = .inf true := by
  unfold ParseFloat at h ⊢
  simp only at h ⊢
  generalize special (goBytes s) = sp at h ⊢
  rcases sp with _ | ⟨v, n⟩
  · simp only at h ⊢
    generalize readFloat (goBytes s) = rf at h ⊢
    rcases rf with _ | sc
    · simp at h
    · simp only at h ⊢
      by_cases h1 : sc.n = (goBytes s).length
      · by_cases h2 : (scanValue sc).2 = true
        · simp only [h1, ne_eq, not_true_eq_false, if_false, scanValue_overflow sc h2]
          cases sc.neg <;> simp
        · simp [h1, h2] at h
      · simp [h1] at h
  · simp only at h ⊢
    split_ifs at h ⊢
    all_goals simp_all

/-! ## The conversions, inverted -/

theorem handsInt_atoi (t : String) : HandsInt t (Atoi t).1 :=
  ⟨rfl, Atoi_errSyn t, Atoi_errRng t⟩

theorem handsFloat_parseFloat (t : String) : HandsFloat t (ParseFloat t).1 :=
  ⟨rfl, ParseFloat_errSyn t, ParseFloat_errRng t⟩

theorem movieArgs_inv (row : List String) (r : MovieRow) (h : movieArgs row = .ok r) :
    ∃ f0 f1 f2 f3 rest, row = f0 :: f1 :: f2 :: f3 :: rest ∧
      r = ⟨(Atoi f0).1, f1, (Atoi f2).1, (ParseFloat f3).1⟩ := by
  match row, h with
  | [], h => cases h
  | [_], h => cases h
  | [_, _], h => cases h
  | [_, _, _], h => cases h
  | f0 :: f1 :: f2 :: f3 :: rest, h =>
    refine ⟨f0, f1, f2, f3, rest, rfl, ?_⟩
    have h' : Except.ok (⟨(Atoi f0).1, f1, (Atoi f2).1, (ParseFloat f3).1⟩ : MovieRow)
        = (Except.ok r : Except Panic MovieRow) := h
    injection h' with h'
    exact h'.symm

theorem actorArgs_inv (row : List String) (r : ActorRow) (h : actorArgs row = .ok r) :
    ∃ f0 f1 f2 f3 rest, row = f0 :: f1 :: f2 :: f3 :: rest ∧
      r = ⟨(Atoi f0).1, f1, f2, f3⟩ := by
  match row, h with
  | [], h => cases h
  | [_], h => cases h
  | [_, _], h => cases h
  | [_, _, _], h => cases h
  | f0 :: f1 :: f2 :: f3 :: rest, h =>
    refine ⟨f0, f1, f2, f3, rest, rfl, ?_⟩
    have h' : Except.ok (⟨(Atoi f0).1, f1, f2, f3⟩ : ActorRow)
        = (Except.ok r : Except Panic ActorRow) := h
    injection h' with h'
    exact h'.symm

theorem genreArgs_inv (row : List String) (r : GenreRow) (h : genreArgs row = .ok r) :
    ∃ f0 f1 rest, row = f0 :: f1 :: rest ∧ r = ⟨(Atoi f0).1, f1⟩ := by
  match row, h with
  | [], h => cases h
  | [_], h => cases h
  | f0 :: f1 :: rest, h =>
    refine ⟨f0, f1, rest, rfl, ?_⟩
    have h' : Except.ok (⟨(Atoi f0).1, f1⟩ : GenreRow)
        = (Except.ok r : Except Panic GenreRow) := h
    injection h' with h'
    exact h'.symm

theorem roleArgs_inv (row : List String) (r : RoleRow) (h : roleArgs row = .ok r) :
    ∃ f0 f1 f2 rest, row = f0 :: f1 :: f2 :: rest ∧
      r = ⟨(Atoi f0).1, (Atoi f1).1, f2⟩ := by
  match row, h with
  | [], h => cases h
  | [_], h => cases h
  | [_, _], h => cases h
  | f0 :: f1 :: f2 :: rest, h =>
    refine ⟨f0, f1, f2, rest, rfl, ?_⟩
    have h' : Except.ok (⟨(Atoi f0).1, (Atoi f1).1, f2⟩ : RoleRow)
        = (Except.ok r : Except Panic RoleRow) := h
    injection h' with h'
    exact h'.symm

theorem set_same {α : Type} :
    ∀ (l : List α) (k : Nat) (v : α), l.get? k = some v → l.set k v = l := by
  intro l
  induction l with
  | nil => intro k v h; simp
  | cons a t ih =>
    intro k v h
    cases k with
    | zero =>
      simp only [List.get?_cons_zero, Option.some.injEq] at h
      simp [h]
    | succ k => simp [ih k v (by simpa using h)]

theorem get?_map_some {α β : Type} (f : α → β) :
    ∀ (l : List α) (i : Nat) (a : α), l.get? i = some a → (l.map f).get? i = some (f a) := by
  intro l
  induction l with
  | nil => intro i a h; simp at h
  | cons b t ih =>
    intro i a h
    cases i with
    | zero =>
      simp only [List.get?_cons_zero, Option.some.injEq] at h
      simp [h]
    | succ i => simpa using ih i a (by simpa using h)

theorem map_get? {α β : Type} (f : α → β) :
    ∀ (l : List α) (i : Nat) (x : β), (l.map f).get? i = some x →
      ∃ a, l.get? i = some a ∧ f a = x := by
  intro l
  induction l with
  | nil => intro i x h; simp at h
  | cons a t ih =>
    intro i x h
    cases i with
    | zero => exact ⟨a, rfl, by simpa using h⟩
    | succ i => exact ih i x (by simpa using h)

theorem mem_set_self {α : Type} :
    ∀ (l : List α) (k : Nat) (a v : α), l.get? k = some a → v ∈ l.set k v := by
  intro l
  induction l with
  | nil => intro k a v h; simp at h
  | cons b t ih =>
    intro k a v h
    cases k with
    | zero => simp
    | succ k =>
      rw [List.set_cons_succ]
      exact List.mem_cons_of_mem _ (ih k a v (by simpa using h))

/-! ## The movies table under its key constraint -/

theorem accepts_sqliteMovies (rs : List MovieRow) :
    ∀ cur : List StoredMovie, AcceptsMovies sqliteMovies.exec cur rs ↔
      (∀ r ∈ rs, r.movie_id ∉ cur.map (fun x => x.movie_id)) ∧
      (rs.map (fun x => x.movie_id)).Nodup := by
  induction rs with
  | nil => intro cur; simp [AcceptsMovies, Accepts]
  | cons r rs ih =>
    intro cur
    have hnone : sqliteMovies.exec cur r = none ↔
        r.movie_id ∉ cur.map (fun x => x.movie_id) := by
      unfold sqliteMovies
      simp only
      split_ifs with h <;> simp [h]
    have hkeys : ∀ a : Int,
        a ∈ (placeByKey (fun s : StoredMovie => s.movie_id) cur (storeMovie r)).map
            (fun x => x.movie_id) ↔ a = r.movie_id ∨ a ∈ cur.map (fun x => x.movie_id) := by
      intro a
      simp only [List.mem_map, mem_placeByKey]
      constructor
      · rintro ⟨x, hx | hx, rfl⟩
        · exact Or.inl (by rw [hx]; rfl)
        · exact Or.inr ⟨x, hx, rfl⟩
      · rintro (h | ⟨x, hx, h⟩)
        · exact ⟨storeMovie r, Or.inl rfl, h.symm⟩
        · exact ⟨x, Or.inr hx, h⟩
    have ih' := ih (placeByKey (fun s : StoredMovie => s.movie_id) cur (storeMovie r))
    unfold AcceptsMovies at ih' ⊢
    simp only [Accepts, ih', hnone, hkeys, List.map_cons, List.mem_cons, List.nodup_cons,
      forall_eq_or_imp, not_or]
    constructor
    · rintro ⟨h1, h2, h3⟩
      refine ⟨⟨h1, fun a ha => (h2 a ha).2⟩, ?_, h3⟩
      intro hmem
      obtain ⟨a, ha, hEq⟩ := List.mem_map.1 hmem
      exact (h2 a ha).1 hEq
    · rintro ⟨⟨h1, h2⟩, h3, h4⟩
      refine ⟨h1, fun a ha => ⟨?_, h2 a ha⟩, h4⟩
      intro hEq
      exact h3 (List.mem_map.2 ⟨a, ha, hEq⟩)

section

variable {R S : Type} (what : String) (args : List String → Except Panic R)
  (store : R → S) (place : List S → S → List S) (eng : TableEngine R S)

theorem writeTable_ok_inv (title : String) (table : List S) (hdr : List String)
    (rows : List (List String))
    (h : (writeTable title what args store place eng table (hdr :: rows)).exit
      = .returned none) :
    ∃ rs, Converts args rows rs ∧ Accepts store place eng.exec table rs := by
  unfold writeTable at h
  simp only [insertLoop, if_true] at h
  cases hl : insertLoop what args store place eng.exec (0 + 1) rows table [] with
  | done C P =>
    obtain ⟨rs, h1, h2, _, _⟩ :=
      insertLoop_done_inv what args store place eng.exec rows 0 table [] C P hl
    exact ⟨rs, h1, h2⟩
  | failed msg P r => simp [hl] at h
  | panicked q P => simp [hl] at h

end

theorem movieArgs_set (row : List String) (r : MovieRow) (h : movieArgs row = .ok r)
    (j : Nat) (t : String)
    (hj : ((j = 0 ∨ j = 2) ∧ (Atoi t).2 = some .errSyn) ∨
      (j = 3 ∧ (ParseFloat t).2 = some .errSyn)) :
    movieArgs (row.set j t) = .ok (zeroField j r) := by
  obtain ⟨f0, f1, f2, f3, rest, rfl, rfl⟩ := movieArgs_inv row r h
  rcases hj with ⟨rfl | rfl, ht⟩ | ⟨rfl, ht⟩
  · show Except.ok _ = _
    simp [zeroField, Atoi_errSyn t ht]
  · show Except.ok _ = _
    simp [zeroField, Atoi_errSyn t ht]
  · show Except.ok _ = _
    simp [zeroField, ParseFloat_errSyn t ht]

theorem mem_set_cases {α : Type} :
    ∀ (l : List α) (k : Nat) (v x : α), x ∈ l.set k v →
      x = v ∨ ∃ i, i ≠ k ∧ l.get? i = some x := by
  intro l
  induction l with
  | nil => intro k v x h; simp at h
  | cons b t ih =>
    intro k v x h
    cases k with
    | zero =>
      rw [List.set_cons_zero, List.mem_cons] at h
      rcases h with h | h
      · exact Or.inl h
      · obtain ⟨i, hi⟩ := List.get?_of_mem h
        exact Or.inr ⟨i + 1, by omega, by simpa using hi⟩
    | succ k =>
      rw [List.set_cons_succ, List.mem_cons] at h
      rcases h with h | h
      · exact Or.inr ⟨0, by omega, by simp [h]⟩
      · rcases ih k v x h with h | ⟨i, hik, hi⟩
        · exact Or.inl h
        · exact Or.inr ⟨i + 1, by omega, by simpa using hi⟩

theorem mem_set_of_get? {α : Type} :
    ∀ (l : List α) (k i : Nat) (v x : α), i ≠ k → l.get? i = some x → x ∈ l.set k v := by
  intro l
  induction l with
  | nil => intro k i v x _ h; simp at h
  | cons b t ih =>
    intro k i v x hik h
    cases k with
    | zero =>
      cases i with
      | zero => exact absurd rfl hik
      | succ i =>
        rw [List.set_cons_zero]
        exact List.mem_cons_of_mem _ (List.get?_mem (by simpa using h))
    | succ k =>
      rw [List.set_cons_succ]
      cases i with
      | zero =>
        simp only [List.get?_cons_zero, Option.some.injEq] at h
        simp [h]
      | succ i =>
        exact List.mem_cons_of_mem _ (ih k i v x (by omega) (by simpa using h))

theorem nodup_map_get?_ne {α β : Type} (f : α → β) :
    ∀ (l : List α) (i k : Nat) (x y : α), (l.map f).Nodup → i ≠ k →
      l.get? i = some x → l.get? k = some y → f x ≠ f y := by
  intro l
  induction l with
  | nil => intro i k x y _ _ h; simp at h
  | cons b t ih =>
    intro i k x y hnd hik hx hy
    rw [List.map_cons, List.nodup_cons] at hnd
    cases i with
    | zero =>
      cases k with
      | zero => exact absurd rfl hik
      | succ k =>
        simp only [List.get?_cons_zero, Option.some.injEq] at hx
        subst hx
        intro hEq
        exact hnd.1 (hEq ▸ List.mem_map_of_mem f (List.get?_mem (by simpa using hy)))
    | succ i =>
      cases k with
      | zero =>
        simp only [List.get?_cons_zero, Option.some.injEq] at hy
        subst hy
        intro hEq
        exact hnd.1 (hEq ▸ List.mem_map_of_mem f (List.get?_mem (by simpa using hx)))
      | succ k =>
        exact ih i k x y hnd.2 (by omega) (by simpa using hx) (by simpa using hy)

/-! ## Conversion of malformed fields -/

/-- C5, amended: in every writer the value handed to the insert for an integer column
(movie_id, actor_id, year) is the value `strconv.Atoi` returned for the field text, its
error being discarded: zero whenever Atoi reports a syntax error (bad syntax, empty
text), and the largest or smallest 64-bit integer, not zero, whenever it reports a range
error.  For the rank column the value handed over is the one `strconv.ParseFloat`
returned, its error being discarded: zero whenever ParseFloat reports a syntax error,
and plus or minus infinity, not zero, whenever it reports a range error. -/
theorem conversion_values_handed_to_insert :
    (∀ (row : List String) (r : MovieRow), movieArgs row = .ok r →
      ∃ f0 f2 f3, row.get? 0 = some f0 ∧ row.get? 2 = some f2 ∧ row.get? 3 = some f3 ∧
        HandsInt f0 r.movie_id ∧ HandsInt f2 r.year ∧ HandsFloat f3 r.rank) ∧
    (∀ (row : List String) (r : ActorRow), actorArgs row = .ok r →
      ∃ f0, row.get? 0 = some f0 ∧ HandsInt f0 r.actor_id) ∧
    (∀ (row : List String) (r : GenreRow), genreArgs row = .ok r →
      ∃ f0, row.get? 0 = some f0 ∧ HandsInt f0 r.movie_id) ∧
    (∀ (row : List String) (r : RoleRow), roleArgs row = .ok r →
      ∃ f0 f1, row.get? 0 = some f0 ∧ row.get? 1 = some f1 ∧
        HandsInt f0 r.actor_id ∧ HandsInt f1 r.movie_id) := by
  refine ⟨?_, ?_, ?_, ?_⟩ <;> intro row r h
  · obtain ⟨f0, f1, f2, f3, rest, rfl, rfl⟩ := movieArgs_inv row r h
    exact ⟨f0, f2, f3, rfl, rfl, rfl, handsInt_atoi f0, handsInt_atoi f2,
      handsFloat_parseFloat f3⟩
  · obtain ⟨f0, f1, f2, f3, rest, rfl, rfl⟩ := actorArgs_inv row r h
    exact ⟨f0, rfl, handsInt_atoi f0⟩
  · obtain ⟨f0, f1, rest, rfl, rfl⟩ := genreArgs_inv row r h
    exact ⟨f0, rfl, handsInt_atoi f0⟩
  · obtain ⟨f0, f1, f2, rest, rfl, rfl⟩ := roleArgs_inv row r h
    exact ⟨f0, f1, rfl, rfl, handsInt_atoi f0, handsInt_atoi f1⟩

/-- A row with a non-numeric key, an empty year and the rank text `n/a` is handed to the
insert with zeros in all three columns, each parse reporting a syntax error. -/
theorem conversion_values_handed_to_insert_witness :
    movieArgs ["abc", "Test Movie", "", "n/a"] = .ok ⟨0, "Test Movie", 0, 0⟩ ∧
    (Atoi "abc").2 = some .errSyn ∧ (Atoi "").2 = some .errSyn ∧
    (ParseFloat "n/a").2 = some .errSyn ∧
    ∃ f0 f2 f3, ["abc", "Test Movie", "", "n/a"].get? 0 = some f0 ∧
      ["abc", "Test Movie", "", "n/a"].get? 2 = some f2 ∧
      ["abc", "Test Movie", "", "n/a"].get? 3 = some f3 ∧
      HandsInt f0 (0 : Int) ∧ HandsInt f2 (0 : Int) ∧ HandsFloat f3 (0 : Float64) :=
  ⟨by decide, by decide, by decide, by decide,
    conversion_values_handed_to_insert.1 ["abc", "Test Movie", "", "n/a"]
      ⟨0, "Test Movie", 0, 0⟩ (by decide)⟩

/-- C5 as stated fails, for the integer columns and for the float column.  Atoi reports
a failure (a range error) for the key text `9223372036854775808`, and the value
`writeGenres` hands to the insert is 9223372036854775807, not zero; likewise below the
smallest integer.  ParseFloat reports a failure (a range error) for the rank text
`1e400`, and the value `writeMovies` hands to the insert is plus infinity, not zero. -/
theorem out_of_range_text_is_not_zero :
    (Atoi "9223372036854775808").2 = some .errRng ∧
    (writeGenres sqliteGenres [] [["movie_id", "genre"], ["9223372036854775808", "Drama"]]).execs
      = [⟨9223372036854775807, "Drama"⟩] ∧
    (⟨9223372036854775807, "Drama"⟩ : GenreRow).movie_id ≠ 0 ∧
    Atoi "-9223372036854775809" = (-9223372036854775808, some .errRng) ∧
    (ParseFloat "1e400").2 = some .errRng ∧
    (writeMovies sqliteMovies [] [moviesHeader, ["1", "Test Movie", "2000", "1e400"]]).execs
      = [⟨1, "Test Movie", 2000, .inf false⟩] ∧
    (⟨1, "Test Movie", 2000, .inf false⟩ : MovieRow).rank ≠ 0 := by
  decide

/-- C4, amended: take a movies row set that `writeMovies` loads without error into the
empty table, and in the data row at position `k` (counted from 0 after the header)
replace field `j` by a text `t`, where either `j` is the year and Atoi reports a syntax
error for `t`, or `j` is the rank and ParseFloat reports a syntax error for `t`, or `j`
is the movie_id, Atoi reports a syntax error for `t` and no other data row has a movie_id
that converts to 0.  Then the load still returns no error.  With `r` the tuple of values
converted from the original row, the table left by the new load holds the stored image
of `r` with the affected column set to 0 and its other columns unchanged, and besides it
exactly the rows of the former table other than the one with the key of `r`; it is the
table SQLite builds from the tuples of the former load with tuple `k` so changed, held
in key order. -/
theorem malformed_field_defaults_to_zero
    (hdr : List String) (rows : List (List String))
    (k : Nat) (row : List String) (j : Nat) (t : String)
    (hload : (writeMovies sqliteMovies [] (hdr :: rows)).exit = .returned none)
    (hrow : rows.get? k = some row)
    (hcase : (j = 2 ∧ (Atoi t).2 = some .errSyn) ∨
      (j = 3 ∧ (ParseFloat t).2 = some .errSyn) ∨
      (j = 0 ∧ (Atoi t).2 = some .errSyn ∧
        ∀ (i : Nat) (other : List String) (f : String), i ≠ k → rows.get? i = some other →
          other.get? 0 = some f → (Atoi f).1 ≠ 0)) :
    (writeMovies sqliteMovies [] (hdr :: rows.set k (row.set j t))).exit = .returned none ∧
    ∃ rs r, Converts movieArgs rows rs ∧ rs.get? k = some r ∧
      movieArgs (row.set j t) = .ok (zeroField j r) ∧
      (writeMovies sqliteMovies [] (hdr :: rows)).table = moviesAfter [] rs ∧
      (writeMovies sqliteMovies [] (hdr :: rows.set k (row.set j t))).table
        = moviesAfter [] (rs.set k (zeroField j r)) ∧
      (∀ s : StoredMovie,
        s ∈ (writeMovies sqliteMovies [] (hdr :: rows.set k (row.set j t))).table ↔
          s = storeMovie (zeroField j r) ∨
          (s ∈ (writeMovies sqliteMovies [] (hdr :: rows)).table ∧
            s.movie_id ≠ r.movie_id)) ∧
      (writeMovies sqliteMovies [] (hdr :: rows.set k (row.set j t))).table.Pairwise
        (fun a b => a.movie_id ≤ b.movie_id) := by
  obtain ⟨rs, hc, ha⟩ :=
    writeTable_ok_inv "movie" movieArgs storeMovie _ sqliteMovies "Movies" [] hdr rows hload
  obtain ⟨r, hr, hrow_r⟩ := forall₂_get? hc k row hrow
  have hj : ((j = 0 ∨ j = 2) ∧ (Atoi t).2 = some .errSyn) ∨
      (j = 3 ∧ (ParseFloat t).2 = some .errSyn) := by
    rcases hcase with ⟨h1, h2⟩ | h | ⟨h1, h2, _⟩
    · exact Or.inl ⟨Or.inr h1, h2⟩
    · exact Or.inr h
    · exact Or.inl ⟨Or.inl h1, h2⟩
  have hset := movieArgs_set row r hrow_r j t hj
  have hc' : Converts movieArgs (rows.set k (row.set j t)) (rs.set k (zeroField j r)) :=
    forall₂_set hc _ _ hset k
  have hnd := ((accepts_sqliteMovies rs []).1 ha).2
  have hid : (j = 2 ∨ j = 3) → (zeroField j r).movie_id = r.movie_id := by
    rintro (rfl | rfl) <;> rfl
  have ha' : AcceptsMovies sqliteMovies.exec [] (rs.set k (zeroField j r)) := by
    rw [accepts_sqliteMovies]
    refine ⟨by simp, ?_⟩
    rw [List.map_set]
    rcases hcase with ⟨h2, _⟩ | ⟨h3, _⟩ | ⟨rfl, _, hother⟩
    · rw [hid (Or.inl h2), set_same _ _ _ (get?_map_some _ rs k r hr)]
      exact hnd
    · rw [hid (Or.inr h3), set_same _ _ _ (get?_map_some _ rs k r hr)]
      exact hnd
    · apply nodup_set _ _ _ hnd
      intro i x hik hx hxe
      obtain ⟨ri, hri, hxi⟩ := map_get? _ rs i x hx
      obtain ⟨rowi, hrowi, hconv⟩ := forall₂_get?_right hc i ri hri
      obtain ⟨g0, g1, g2, g3, rest, rfl, rfl⟩ := movieArgs_inv rowi ri hconv
      apply hother i _ g0 hik hrowi rfl
      rw [← hxi] at hxe
      simpa [zeroField] using hxe
  have hold : writeMovies sqliteMovies [] (hdr :: rows) = _ :=
    writeTable_ok "movie" movieArgs storeMovie _ sqliteMovies "Movies" [] hdr rows rs hc ha rfl
  have hnew : writeMovies sqliteMovies [] (hdr :: rows.set k (row.set j t)) = _ :=
    writeTable_ok "movie" movieArgs storeMovie _ sqliteMovies "Movies" [] hdr _ _ hc' ha' rfl
  have hmemOld : ∀ s, s ∈ moviesAfter [] rs ↔ s ∈ rs.map storeMovie := by
    intro s
    simpa using (inserted_byKey_perm (fun s : StoredMovie => s.movie_id) storeMovie rs []).mem_iff
  have hmemNew : ∀ s, s ∈ moviesAfter [] (rs.set k (zeroField j r)) ↔
      s ∈ (rs.set k (zeroField j r)).map storeMovie := by
    intro s
    simpa using (inserted_byKey_perm (fun s : StoredMovie => s.movie_id) storeMovie
      (rs.set k (zeroField j r)) []).mem_iff
  rw [hold, hnew]
  refine ⟨rfl, rs, r, hc, hr, hset, rfl, rfl, ?_, ?_⟩
  · intro s
    show s ∈ moviesAfter [] (rs.set k (zeroField j r)) ↔
      s = storeMovie (zeroField j r) ∨ (s ∈ moviesAfter [] rs ∧ s.movie_id ≠ r.movie_id)
    rw [hmemNew, hmemOld, List.mem_map, List.mem_map]
    constructor
    · rintro ⟨x, hx, rfl⟩
      rcases mem_set_cases rs k _ x hx with rfl | ⟨i, hik, hi⟩
      · exact Or.inl rfl
      · exact Or.inr ⟨⟨x, List.get?_mem hi, rfl⟩,
          nodup_map_get?_ne (fun x : MovieRow => x.movie_id) rs i k x r hnd hik hi hr⟩
    · rintro (rfl | ⟨⟨x, hx, rfl⟩, hne⟩)
      · exact ⟨_, mem_set_self rs k r _ hr, rfl⟩
      · obtain ⟨i, hi⟩ := List.get?_of_mem hx
        refine ⟨x, mem_set_of_get? rs k i _ x ?_ hi, rfl⟩
        rintro rfl
        rw [hr] at hi
        injection hi with hi
        exact hne (by rw [hi]; rfl)
  · exact inserted_byKey_sorted (fun s : StoredMovie => s.movie_id) storeMovie _ []
      List.Pairwise.nil

/-- In the minimal movies file the rank `7.5` is replaced by `n/a`, or the year `2000`
by the empty text: the load succeeds and the row is stored with rank 0, resp. year 0.
In `moviesUnordered` the movie_id `5` is replaced by `abc`: the load succeeds and the
row is stored under the key 0, before the row with key 1. -/
theorem malformed_field_defaults_to_zero_witness :
    ((writeMovies sqliteMovies []
        (moviesHeader :: [["1", "Test Movie", "2000", "7.5"]].set 0
          (["1", "Test Movie", "2000", "7.5"].set 3 "n/a"))).exit = .returned none ∧
      (writeMovies sqliteMovies []
        (moviesHeader :: [["1", "Test Movie", "2000", "7.5"]].set 0
          (["1", "Test Movie", "2000", "7.5"].set 3 "n/a"))).table
        = [⟨1, "Test Movie", 2000, some 0⟩]) ∧
    ((writeMovies sqliteMovies []
        (moviesHeader :: [["1", "Test Movie", "2000", "7.5"]].set 0
          (["1", "Test Movie", "2000", "7.5"].set 2 ""))).exit = .returned none ∧
      (writeMovies sqliteMovies []
        (moviesHeader :: [["1", "Test Movie", "2000", "7.5"]].set 0
          (["1", "Test Movie", "2000", "7.5"].set 2 ""))).table
        = [⟨1, "Test Movie", 0, some rank7_5⟩]) ∧
    ((writeMovies sqliteMovies []
        (moviesHeader :: [["5", "Other Movie", "2001", "6.0"],
            ["1", "Test Movie", "2000", "7.5"]].set 0
          (["5", "Other Movie", "2001", "6.0"].set 0 "abc"))).exit = .returned none ∧
      (writeMovies sqliteMovies []
        (moviesHeader :: [["5", "Other Movie", "2001", "6.0"],
            ["1", "Test Movie", "2000", "7.5"]].set 0
          (["5", "Other Movie", "2001", "6.0"].set 0 "abc"))).table
        = [⟨0, "Other Movie", 2001, some rank6⟩, ⟨1, "Test Movie", 2000, some rank7_5⟩]) :=
  ⟨⟨(malformed_field_defaults_to_zero moviesHeader [["1", "Test Movie", "2000", "7.5"]]
      0 ["1", "Test Movie", "2000", "7.5"] 3 "n/a" (by decide) rfl
      (Or.inr (Or.inl ⟨rfl, by decide⟩))).1, by decide⟩,
   ⟨(malformed_field_defaults_to_zero moviesHeader [["1", "Test Movie", "2000", "7.5"]]
      0 ["1", "Test Movie", "2000", "7.5"] 2 "" (by decide) rfl
      (Or.inl ⟨rfl, by decide⟩)).1, by decide⟩,
   ⟨(malformed_field_defaults_to_zero moviesHeader
      [["5", "Other Movie", "2001", "6.0"], ["1", "Test Movie", "2000", "7.5"]]
      0 ["5", "Other Movie", "2001", "6.0"] 0 "abc" (by decide) rfl
      (Or.inr (Or.inr ⟨rfl, by decide, by
        intro i other f hik hi hf
        match i, hik, hi with
        | 1, _, hi =>
          simp only [List.get?_cons_succ, List.get?_cons_zero, Option.some.injEq] at hi
          subst hi
          simp only [List.get?_cons_zero, Option.some.injEq] at hf
          subst hf
          decide
        | i + 2, _, hi => simp at hi⟩))).1, by decide⟩⟩

/-- C4 as stated fails.  `moviesZeroKey` loads without error.  With the movie_id `5` of
its second data row replaced by `abc`, which Atoi rejects, the key becomes 0, collides
with the first row and the load returns an error.  With the year of that row replaced by
`99999999999999999999`, which Atoi rejects as out of range, the load succeeds but the
year stored is 9223372036854775807, not 0.  With the rank of that row replaced by
`1e400`, which ParseFloat rejects as out of range, the load succeeds but the rank stored
is plus infinity, not 0. -/
theorem malformed_field_can_abort_or_saturate :
    (writeMovies sqliteMovies [] moviesZeroKey).exit = .returned none ∧
    (Atoi "abc").2 = some .errSyn ∧
    (writeMovies sqliteMovies []
        (moviesZeroKey.set 2 (["5", "Other Movie", "2001", "6.0"].set 0 "abc"))).exit
      = .returned (some
        "insert movie row 3: constraint failed: UNIQUE constraint failed: movies.movie_id (1555)") ∧
    (Atoi "99999999999999999999").2 = some .errRng ∧
    (writeMovies sqliteMovies []
        (moviesZeroKey.set 2
          (["5", "Other Movie", "2001", "6.0"].set 2 "99999999999999999999"))).table
      = [⟨0, "Test Movie", 2000, some rank7_5⟩,
         ⟨5, "Other Movie", 9223372036854775807, some rank6⟩] ∧
    (ParseFloat "1e400").2 = some .errRng ∧
    (writeMovies sqliteMovies []
        (moviesZeroKey.set 2 (["5", "Other Movie", "2001", "6.0"].set 3 "1e400"))).table
      = [⟨0, "Test Movie", 2000, some rank7_5⟩,
         ⟨5, "Other Movie", 2001, some (.inf false)⟩] := by
  decide

/-! ## main -/

section
variable {R S : Type} (what : String) (args : List String → Except Panic R)
  (store : R → S) (place : List S → S → List S) (eng : TableEngine R S)

theorem writeTable_out (title : String) (table : List S) (data : List (List String)) :
    ((writeTable title what args store place eng table data).exit = .returned none ∧
      ∃ n, (writeTable title what args store place eng table data).out
        = [startLine what, [title ++ " inserted:", n]]) ∨
    ((writeTable title what args store place eng table data).exit ≠ .returned none ∧
      (writeTable title what args store place eng table data).table = table ∧
      ((writeTable title what args store place eng table data).out = [startLine what] ∨
        ∃ n, (writeTable title what args store place eng table data).out
          = [startLine what, [title ++ " inserted:", n]])) := by
  unfold writeTable
  cases insertLoop what args store place eng.exec 0 data table [] with
  | done C P =>
    simp only
    cases hcm : eng.commit C with
    | none => exact Or.inl ⟨rfl, _, rfl⟩
    | some e => exact Or.inr ⟨by simp, rfl, Or.inr ⟨_, rfl⟩⟩
  | failed msg P r => exact Or.inr ⟨by simp, rfl, Or.inl rfl⟩
  | panicked q P => exact Or.inr ⟨by simp, rfl, Or.inl rfl⟩
end

/-- C6: the loads of `main` run in the fixed order movies, actors, genres, roles: the
start lines in the output are an initial part of that sequence, `writeMovies` always
starts, and each later load starts exactly when all the loads before it returned without
error.  When a load returns an error the run ends with the fatal error of that load, and
the database holds the tables committed by the earlier loads and, for the failed load
and those after it, the contents from before the run of the loads. -/
theorem loads_run_in_order_and_stop_at_first_error (E : Engine) (db : DB)
    (md ad gd rd : List (List String)) :
    let m := writeMovies E.movies db.movies md
    let a := writeActors E.actors db.actors ad
    let g := writeGenres E.genres db.genres gd
    let r := writeRoles E.roles db.roles rd
    let run := loadAll E db md ad gd rd
    startLines run.out <+: [startLine "movie", startLine "actor", startLine "genre",
      startLine "role"] ∧
    startLine "movie" ∈ run.out ∧
    (startLine "actor" ∈ run.out ↔ m.exit = .returned none) ∧
    (startLine "genre" ∈ run.out ↔ m.exit = .returned none ∧ a.exit = .returned none) ∧
    (startLine "role" ∈ run.out ↔
      m.exit = .returned none ∧ a.exit = .returned none ∧ g.exit = .returned none) ∧
    (∀ e, m.exit = .returned (some e) →
      run.exit = .fatal "failed inserting movies" e ∧ run.db = db) ∧
    (∀ e, m.exit = .returned none → a.exit = .returned (some e) →
      run.exit = .fatal "failed inserting actors" e ∧
      run.db = ⟨m.table, db.actors, db.genres, db.roles⟩) ∧
    (∀ e, m.exit = .returned none → a.exit = .returned none →
      g.exit = .returned (some e) →
      run.exit = .fatal "failed inserting genres" e ∧
      run.db = ⟨m.table, a.table, db.genres, db.roles⟩) ∧
    (∀ e, m.exit = .returned none → a.exit = .returned none → g.exit = .returned none →
      r.exit = .returned (some e) →
      run.exit = .fatal "failed inserting roles" e ∧
      run.db = ⟨m.table, a.table, g.table, db.roles⟩) := by
  intro m a g r run
  have hm := writeTable_out "movie" movieArgs storeMovie
    (placeByKey (fun s : StoredMovie => s.movie_id)) E.movies "Movies" db.movies md
  have ha := writeTable_out "actor" actorArgs id
    (placeByKey (fun s : ActorRow => s.actor_id)) E.actors "Actors" db.actors ad
  have hg := writeTable_out "genre" genreArgs id placeLast E.genres "Genres" db.genres gd
  have hr := writeTable_out "role" roleArgs id placeLast E.roles "Roles" db.roles rd
  show startLines (loadAll E db md ad gd rd).out <+: _ ∧ _
  simp only [m, a, g, r, run, loadAll, must]
  simp only [writeMovies, writeActors, writeGenres, writeRoles]
  generalize writeTable "Movies" "movie" movieArgs storeMovie
    (placeByKey (fun s : StoredMovie => s.movie_id)) E.movies db.movies md = M at hm ⊢
  generalize writeTable "Actors" "actor" actorArgs id
    (placeByKey (fun s : ActorRow => s.actor_id)) E.actors db.actors ad = A at ha ⊢
  generalize writeTable "Genres" "genre" genreArgs id placeLast E.genres db.genres gd = G
    at hg ⊢
  generalize writeTable "Roles" "role" roleArgs id placeLast E.roles db.roles rd = R at hr ⊢
  obtain ⟨me, mtx, mt, mp, mx, mo⟩ := M
  obtain ⟨ae, atx, at_, ap, ax, ao⟩ := A
  obtain ⟨ge, gtx, gt, gp, gx, go⟩ := G
  obtain ⟨re, rtx, rt, rp, rx, ro⟩ := R
  simp only at hm ha hg hr ⊢
  rcases hm with ⟨rfl, n1, rfl⟩ | ⟨hme, rfl, rfl | ⟨n1, rfl⟩⟩
  · rcases ha with ⟨rfl, n2, rfl⟩ | ⟨hae, rfl, rfl | ⟨n2, rfl⟩⟩
    · rcases hg with ⟨rfl, n3, rfl⟩ | ⟨hge, rfl, rfl | ⟨n3, rfl⟩⟩
      · rcases hr with ⟨rfl, n4, rfl⟩ | ⟨hre, rfl, rfl | ⟨n4, rfl⟩⟩
        · simp [startLines, startLine]
        all_goals
          rcases re with (_ | e) | p
          · exact absurd rfl hre
          · simp [startLines, startLine]
          · simp [startLines, startLine]
      all_goals
        rcases ge with (_ | e) | p
        · exact absurd rfl hge
        · simp [startLines, startLine]
        · simp [startLines, startLine]
    all_goals
      rcases ae with (_ | e) | p
      · exact absurd rfl hae
      · simp [startLines, startLine]
      · simp [startLines, startLine]
  all_goals
    rcases me with (_ | e) | p
    · exact absurd rfl hme
    · simp [startLines, startLine]
    · simp [startLines, startLine]

/-- With a duplicate key in the actors file the movies table keeps its committed row,
the run ends with the actors error, and the genres and roles loads do not start. -/
theorem loads_run_in_order_and_stop_at_first_error_witness :
    (loadAll sqlite ⟨[], [], [], []⟩ moviesMinimal actorsDup genresMinimal
        rolesMinimal).exit
      = .fatal "failed inserting actors"
          "insert actor row 3: constraint failed: UNIQUE constraint failed: actors.actor_id (1555)" ∧
    (loadAll sqlite ⟨[], [], [], []⟩ moviesMinimal actorsDup genresMinimal
        rolesMinimal).db = ⟨[⟨1, "Test Movie", 2000, some rank7_5⟩], [], [], []⟩ ∧
    startLine "genre" ∉ (loadAll sqlite ⟨[], [], [], []⟩ moviesMinimal
        actorsDup genresMinimal rolesMinimal).out :=
  have h := loads_run_in_order_and_stop_at_first_error sqlite
    ⟨[], [], [], []⟩ moviesMinimal actorsDup genresMinimal rolesMinimal
  ⟨(h.2.2.2.2.2.2.1 "insert actor row 3: constraint failed: UNIQUE constraint failed: actors.actor_id (1555)"
      (by decide) (by decide)).1,
   (h.2.2.2.2.2.2.1 "insert actor row 3: constraint failed: UNIQUE constraint failed: actors.actor_id (1555)"
      (by decide) (by decide)).2,
   fun hin => absurd (h.2.2.2.1.1 hin).2 (by decide)⟩

theorem joined_readErr (res : Reader → ReadResult) (order : List Reader) (last : Reader) :
    (joined res (order ++ [last])).readErr = (res last).err := by
  unfold joined
  rw [List.foldl_append]
  cases last <;> rfl

theorem writeTable_starts {R S : Type} (title what : String)
    (args : List String → Except Panic R) (store : R → S) (place : List S → S → List S)
    (eng : TableEngine R S) (table : List S) (data : List (List String)) :
    startLine what ∈ (writeTable title what args store place eng table data).out := by
  unfold writeTable
  cases insertLoop what args store place eng.exec 0 data table [] with
  | done C P =>
    simp only
    cases hcm : eng.commit C
    all_goals simp [startLine]
  | failed msg P r => simp [startLine]
  | panicked q P => simp [startLine]

theorem loadAll_starts_movies (E : Engine) (db : DB) (md ad gd rd : List (List String)) :
    startLine "movie" ∈ (loadAll E db md ad gd rd).out := by
  have hm := writeTable_starts "Movies" "movie" movieArgs storeMovie
    (placeByKey (fun s : StoredMovie => s.movie_id)) E.movies db.movies md
  simp only [loadAll, writeMovies, must]
  generalize writeTable "Movies" "movie" movieArgs storeMovie
    (placeByKey (fun s : StoredMovie => s.movie_id)) E.movies db.movies md = M at hm ⊢
  repeat' split
  all_goals simp only [List.mem_append, hm, true_or, or_true]

/-- C1, what the code does: after the join `readErr` holds what the goroutine whose
assignment took effect last has assigned, whatever the other three readers returned.
When that reader succeeded, `readErr` is nil, so `main` does not stop at the read check:
it goes on to the loads with the data slots as assigned (empty for a reader that failed)
and `writeMovies` is called.  Only when that reader failed does the run end with the
read error before any load. -/
theorem last_assignment_decides_read_error (E : Engine) (res : Reader → ReadResult)
    (order : List Reader) (last : Reader) :
    (joined res (order ++ [last])).readErr = (res last).err ∧
    ((res last).err = none →
      (main E res (order ++ [last])).exit
        = (loadAll E ⟨[], [], [], []⟩ (joined res (order ++ [last])).moviesData
            (joined res (order ++ [last])).actorsData
            (joined res (order ++ [last])).genresData
            (joined res (order ++ [last])).rolesData).exit ∧
      startLine "movie" ∈ (main E res (order ++ [last])).out) ∧
    (∀ e, (res last).err = some e →
      main E res (order ++ [last])
        = ⟨.fatal "failed while reading CSV files" e, ⟨[], [], [], []⟩,
            [["Reading CSVs..."]]⟩) := by
  have h := joined_readErr res order last
  refine ⟨h, ?_, ?_⟩
  · intro hok
    rw [hok] at h
    refine ⟨?_, ?_⟩
    · simp only [main, must, h]
    · simp only [main, must, h]
      exact List.mem_append_right _ (loadAll_starts_movies E _ _ _ _ _)
  · intro e he
    rw [he] at h
    simp only [main, must, h]

/-- The movies file is missing and the assignments take effect in the order movies,
actors, genres, roles: `readErr` is nil after the join, `writeMovies` is called, the
run ends normally and the actors, genres and roles tables are written. -/
theorem last_assignment_decides_read_error_witness :
    (readsMoviesMissing .movies).err ≠ none ∧
    (joined readsMoviesMissing ([.movies, .actors, .genres] ++ [.roles])).readErr = none ∧
    (main sqlite readsMoviesMissing ([.movies, .actors, .genres] ++ [.roles])).exit
      = .ok ∧
    (main sqlite readsMoviesMissing ([.movies, .actors, .genres] ++ [.roles])).db
      = ⟨[], [⟨10, "Jane", "Doe", "F"⟩], [⟨1, "Drama"⟩], [⟨10, 1, "Lead"⟩]⟩ ∧
    startLine "movie" ∈
      (main sqlite readsMoviesMissing
        ([.movies, .actors, .genres] ++ [.roles])).out :=
  ⟨by decide,
   (last_assignment_decides_read_error sqlite readsMoviesMissing
     [.movies, .actors, .genres] .roles).1,
   by decide, by decide,
   ((last_assignment_decides_read_error sqlite readsMoviesMissing
     [.movies, .actors, .genres] .roles).2.1 rfl).2⟩

/-! ## The schema script -/

theorem drops_clear {ρ : Type} (c : Catalog ρ)
    (htables : ∀ t ∈ c.tables, t.name ∈ fourTables)
    (hindexes : ∀ i ∈ c.indexes, i.table ∈ c.tables.map (fun t => t.name)) :
    execScript c Schema = execScript (emptyCatalog ρ) (Schema.drop 4) := by
  have ht : (((c.tables.filter (fun x => x.name != "roles")).filter
      (fun x => x.name != "genres")).filter (fun x => x.name != "actors")).filter
      (fun x => x.name != "movies") = [] := by
    simp only [List.filter_filter, List.filter_eq_nil_iff]
    intro t ht
    have := htables t ht
    simp only [fourTables, List.mem_cons, List.mem_singleton, List.not_mem_nil, or_false] at this
    rcases this with h | h | h | h <;> simp [h]
  have hi : (((c.indexes.filter (fun x => x.table != "roles")).filter
      (fun x => x.table != "genres")).filter (fun x => x.table != "actors")).filter
      (fun x => x.table != "movies") = [] := by
    simp only [List.filter_filter, List.filter_eq_nil_iff]
    intro i hi
    obtain ⟨t, ht, hEq⟩ := List.mem_map.1 (hindexes i hi)
    have := htables t ht
    rw [hEq] at this
    simp only [fourTables, List.mem_cons, List.mem_singleton, List.not_mem_nil, or_false] at this
    rcases this with h | h | h | h <;> simp [h]
  simp only [Schema, execScript, execStmt, List.drop, ht, hi, emptyCatalog]

theorem schema_from_empty (ρ : Type) :
    execScript (emptyCatalog ρ) (Schema.drop 4) = .ok (rebuilt ρ) := by
  rfl

theorem execScript_schema {ρ : Type} (c : Catalog ρ)
    (htables : ∀ t ∈ c.tables, t.name ∈ fourTables)
    (hindexes : ∀ i ∈ c.indexes, i.table ∈ c.tables.map (fun t => t.name)) :
    execScript c Schema = .ok (rebuilt ρ) := by
  rw [drops_clear c htables hindexes, schema_from_empty]

/-- C7: from every prior database state made of tables among movies, actors, genres and
roles, with any definitions and any rows, and of indexes on tables that are present,
executing `Schema` succeeds and leaves exactly the four tables, in the order created
and all without rows, and exactly the three indexes on genres.movie_id, roles.actor_id
and roles.movie_id; executing `Schema` once more on the result succeeds and gives the
same state; the drops come in the order roles, genres, actors, movies, every table that
declares a foreign key being dropped before the table it references. -/
theorem schema_script_rebuilds_the_database {ρ : Type} (c : Catalog ρ)
    (htables : ∀ t ∈ c.tables, t.name ∈ fourTables)
    (hindexes : ∀ i ∈ c.indexes, i.table ∈ c.tables.map (fun t => t.name)) :
    ∃ c1, execScript c Schema = .ok c1 ∧
      c1.tables.map (fun t => t.name) = ["movies", "actors", "genres", "roles"] ∧
      (∀ t ∈ c1.tables, t.rows = []) ∧
      c1.indexes = [⟨"idx_genres_movie_id", "genres", "movie_id"⟩,
        ⟨"idx_roles_actor_id", "roles", "actor_id"⟩,
        ⟨"idx_roles_movie_id", "roles", "movie_id"⟩] ∧
      execScript c1 Schema = .ok c1 ∧
      dropOrder Schema = ["roles", "genres", "actors", "movies"] ∧
      ∀ p ∈ references Schema,
        (dropOrder Schema).indexOf p.1 < (dropOrder Schema).indexOf p.2 := by
  refine ⟨rebuilt ρ, execScript_schema c htables hindexes, rfl, ?_, rfl, ?_, rfl, by decide⟩
  · intro t ht
    simp only [rebuilt, List.mem_cons, List.mem_singleton, List.not_mem_nil, or_false] at ht
    rcases ht with rfl | rfl | rfl | rfl <;> rfl
  · apply execScript_schema
    · intro t ht
      simp only [rebuilt, List.mem_cons, List.mem_singleton, List.not_mem_nil, or_false] at ht
      rcases ht with rfl | rfl | rfl | rfl <;> simp [fourTables]
    · intro i hi
      simp only [rebuilt, threeIndexes, List.mem_cons, List.mem_singleton, List.not_mem_nil,
        or_false] at hi
      rcases hi with rfl | rfl | rfl <;> simp [rebuilt]

/-- The script rebuilds the database left by an older run. -/
theorem schema_script_rebuilds_the_database_witness :
    ∃ c1, execScript priorExample Schema = .ok c1 ∧
      c1.tables.map (fun t => t.name) = ["movies", "actors", "genres", "roles"] ∧
      (∀ t ∈ c1.tables, t.rows = []) ∧
      c1.indexes = [⟨"idx_genres_movie_id", "genres", "movie_id"⟩,
        ⟨"idx_roles_actor_id", "roles", "actor_id"⟩,
        ⟨"idx_roles_movie_id", "roles", "movie_id"⟩] ∧
      execScript c1 Schema = .ok c1 ∧
      dropOrder Schema = ["roles", "genres", "actors", "movies"] ∧
      ∀ p ∈ references Schema,
        (dropOrder Schema).indexOf p.1 < (dropOrder Schema).indexOf p.2 :=
  schema_script_rebuilds_the_database priorExample (by decide) (by decide)

/-! ## The result renderer -/

theorem len_append (a b : String) : len (a ++ b) = len a + len b := by
  simp [len, goBytes, String.data_append, List.flatMap_append]

theorem len_Repeat (s : String) (n : Nat) : len (Repeat s n) = n * len s := by
  induction n with
  | zero => simp [Repeat, len, goBytes]
  | succ n ih => rw [Repeat, len_append, ih, Nat.succ_mul]

theorem len_space : len " " = 1 := by decide
theorem len_dash : len "-" = 1 := by decide
theorem len_plus : len "+" = 1 := by decide
theorem len_bar : len "|" = 1 := by decide
theorem len_space_bar : len " |" = 2 := by decide

theorem len_pad (s : String) (w : Nat) : len (pad s w) = max (len s) w := by
  unfold pad
  split_ifs with h
  · exact (Nat.max_eq_left h).symm
  · rw [len_append, len_Repeat, len_space]
    omega

theorem pad_extends (s : String) (w : Nat) : ∃ k, pad s w = s ++ Repeat " " k := by
  unfold pad
  split_ifs with h
  · exact ⟨0, by simp [Repeat]⟩
  · exact ⟨_, rfl⟩

theorem len_eq_length_of_ascii (s : String) (h : Ascii s) : len s = s.length := by
  obtain ⟨l⟩ := s
  unfold Ascii at h
  simp only [len, goBytes, String.length]
  simp only at h
  induction l with
  | nil => rfl
  | cons c t ih =>
    have hc : c.toNat < 128 := h c (List.mem_cons_self _ _)
    have ht := ih (fun x hx => h x (List.mem_cons_of_mem _ hx))
    simp only [List.flatMap_cons, List.length_append, List.length_cons, ht]
    simp [utf8Bytes, hc, Nat.add_comm]

theorem ascii_append (a b : String) (ha : Ascii a) (hb : Ascii b) : Ascii (a ++ b) := by
  intro c hc
  rw [String.data_append, List.mem_append] at hc
  rcases hc with h | h
  · exact ha c h
  · exact hb c h

theorem ascii_Repeat (s : String) (hs : Ascii s) (n : Nat) : Ascii (Repeat s n) := by
  induction n with
  | zero => intro c hc; simp [Repeat] at hc
  | succ n ih => exact ascii_append _ _ ih hs

theorem ascii_space : Ascii " " := by unfold Ascii; decide
theorem ascii_dash : Ascii "-" := by unfold Ascii; decide
theorem ascii_plus : Ascii "+" := by unfold Ascii; decide
theorem ascii_bar : Ascii "|" := by unfold Ascii; decide
theorem ascii_space_bar : Ascii " |" := by unfold Ascii; decide
theorem ascii_empty : Ascii "" := by unfold Ascii; decide

theorem ascii_pad (s : String) (hs : Ascii s) (w : Nat) : Ascii (pad s w) := by
  unfold pad
  split_ifs
  · exact hs
  · exact ascii_append _ _ hs (ascii_Repeat _ ascii_space _)

theorem widen_spec : ∀ (ws : List Nat) (row : List String), row.length = ws.length →
    ∃ ws1, widen ws row = some ws1 ∧ ws1.length = ws.length ∧
      ∀ i, i < ws.length → ws1.getD i 0 = max (ws.getD i 0) (len (row.getD i "")) := by
  intro ws
  induction ws with
  | nil =>
    intro row h
    have : row = [] := List.length_eq_zero.1 h
    subst this
    exact ⟨[], rfl, rfl, fun i hi => absurd hi (Nat.not_lt_zero _)⟩
  | cons w ws ih =>
    intro row h
    cases row with
    | nil => simp at h
    | cons cell cells =>
      obtain ⟨ws1, h1, h2, h3⟩ := ih cells (by simpa using h)
      refine ⟨(if len cell > w then len cell else w) :: ws1, by simp [widen, h1], by simp [h2],
        ?_⟩
      intro i hi
      cases i with
      | zero =>
        simp only [List.getD_cons_zero]
        split_ifs <;> omega
      | succ i =>
        simp only [List.getD_cons_succ]
        exact h3 i (by simpa using hi)

theorem foldlM_widen : ∀ (data : List (List String)) (ws : List Nat),
    (∀ row ∈ data, row.length = ws.length) →
    ∃ W, data.foldlM widen ws = some W ∧ W.length = ws.length ∧
      ∀ i, i < ws.length →
        IsWidest (ws.getD i 0) (data.map (fun row => len (row.getD i ""))) (W.getD i 0) := by
  intro data
  induction data with
  | nil =>
    intro ws _
    exact ⟨ws, rfl, rfl, fun i _ => ⟨le_rfl, by simp, Or.inl rfl⟩⟩
  | cons row rest ih =>
    intro ws h
    obtain ⟨ws1, h1, h2, h3⟩ := widen_spec ws row (h row (List.mem_cons_self _ _))
    obtain ⟨W, hW1, hW2, hW3⟩ := ih ws1
      (fun r hr => by rw [h2]; exact h r (List.mem_cons_of_mem _ hr))
    refine ⟨W, by simp [List.foldlM, h1, hW1], by rw [hW2, h2], ?_⟩
    intro i hi
    obtain ⟨a1, a2, a3⟩ := hW3 i (by rw [h2]; exact hi)
    have hmax := h3 i hi
    refine ⟨by omega, ?_, ?_⟩
    · intro v hv
      simp only [List.map_cons, List.mem_cons] at hv
      rcases hv with rfl | hv
      · omega
      · exact a2 v hv
    · rcases a3 with a3 | a3
      · rw [a3, hmax]
        rcases Nat.le_total (ws.getD i 0) (len (row.getD i "")) with hle | hle
        · right
          rw [Nat.max_eq_right hle]
          simp
        · left
          exact Nat.max_eq_left hle
      · right
        simp only [List.map_cons, List.mem_cons]
        exact Or.inr a3

theorem len_borderCells (ws : List Nat) :
    len (borderCells ws) = (ws.map (fun w => w + 3)).sum := by
  induction ws with
  | nil => rfl
  | cons w ws ih =>
    simp only [borderCells, len_append, len_Repeat, len_dash, len_plus, ih, List.map_cons,
      List.sum_cons]
    omega

theorem ascii_borderCells (ws : List Nat) : Ascii (borderCells ws) := by
  induction ws with
  | nil => exact ascii_empty
  | cons w ws ih =>
    exact ascii_append _ _ (ascii_append _ _ (ascii_Repeat _ ascii_dash _) ascii_plus) ih

theorem cellsText_spec : ∀ (ws : List Nat) (row : List String), row.length = ws.length →
    (∀ i, i < ws.length → len (row.getD i "") ≤ ws.getD i 0) →
    ∃ t, cellsText row ws = some t ∧ len t = (ws.map (fun w => w + 3)).sum ∧
      ((∀ cell ∈ row, Ascii cell) → Ascii t) := by
  intro ws
  induction ws with
  | nil =>
    intro row h _
    have : row = [] := List.length_eq_zero.1 h
    subst this
    exact ⟨"", rfl, rfl, fun _ => ascii_empty⟩
  | cons w ws ih =>
    intro row h hle
    cases row with
    | nil => simp at h
    | cons cell cells =>
      obtain ⟨t, h1, h2, h3⟩ := ih cells (by simpa using h)
        (fun i hi => by simpa using hle (i + 1) (by simpa using hi))
      have h0 : len cell ≤ w := by simpa using hle 0 (by simp)
      refine ⟨(" " ++ pad cell w ++ " |") ++ t, by simp [cellsText, h1], ?_, ?_⟩
      · simp only [len_append, len_pad, len_space, len_space_bar, h2, List.map_cons,
          List.sum_cons, Nat.max_eq_right h0]
        omega
      · intro hasc
        exact ascii_append _ _
          (ascii_append _ _
            (ascii_append _ _ ascii_space (ascii_pad _ (hasc cell (List.mem_cons_self _ _)) _))
            ascii_space_bar)
          (h3 (fun c hc => hasc c (List.mem_cons_of_mem _ hc)))

theorem rowLine_spec (ws : List Nat) (row : List String) (hlen : row.length = ws.length)
    (hle : ∀ i, i < ws.length → len (row.getD i "") ≤ ws.getD i 0) :
    ∃ l, rowLine row ws = some l ∧ len l = 1 + (ws.map (fun w => w + 3)).sum ∧
      ((∀ cell ∈ row, Ascii cell) → Ascii l) := by
  obtain ⟨t, h1, h2, h3⟩ := cellsText_spec ws row hlen hle
  refine ⟨"|" ++ t, by simp [rowLine, h1], by rw [len_append, len_bar, h2], ?_⟩
  intro hasc
  exact ascii_append _ _ ascii_bar (h3 hasc)

theorem rowLines_spec (ws : List Nat) : ∀ (data : List (List String)),
    (∀ row ∈ data, row.length = ws.length ∧
      ∀ i, i < ws.length → len (row.getD i "") ≤ ws.getD i 0) →
    ∃ body, rowLines ws data = some body ∧ body.length = data.length ∧
      (∀ l ∈ body, len l = 1 + (ws.map (fun w => w + 3)).sum) ∧
      ((∀ row ∈ data, ∀ cell ∈ row, Ascii cell) → ∀ l ∈ body, Ascii l) := by
  intro data
  induction data with
  | nil => intro _; exact ⟨[], rfl, rfl, by simp, by simp⟩
  | cons row rest ih =>
    intro h
    obtain ⟨l, h1, h2, h3⟩ := rowLine_spec ws row (h row (List.mem_cons_self _ _)).1
      (h row (List.mem_cons_self _ _)).2
    obtain ⟨body, b1, b2, b3, b4⟩ := ih (fun r hr => h r (List.mem_cons_of_mem _ hr))
    refine ⟨l :: body, by simp [rowLines, h1, b1], by simp [b2], ?_, ?_⟩
    · intro x hx
      rcases List.mem_cons.1 hx with rfl | hx
      · exact h2
      · exact b3 x hx
    · intro hasc x hx
      rcases List.mem_cons.1 hx with rfl | hx
      · exact h3 (hasc row (List.mem_cons_self _ _))
      · exact b4 (fun r hr => hasc r (List.mem_cons_of_mem _ hr)) x hx

/-- C9, amended: for every list of column names and every list of rows with one cell per
column, `printTable` prints its lines without panic; lengths being taken in bytes (Go's
`len`), the width of each column is the largest length among the column name and the
cells of that column, `pad(s, w)` is `s` followed by spaces only and has length
`max (len s) w`, and the three borders, the header line and the data lines all have the
same length, one more than the sum of the widths plus three per column.  A text made of
ASCII characters has as many bytes as characters, and when all names and cells are such
texts every printed line has that same number of characters. -/
theorem printTable_aligns_in_bytes (cols : List String) (data : List (List String))
    (hrows : ∀ row ∈ data, row.length = cols.length) :
    ∃ W lines, colWidths cols data = some W ∧ printTable cols data = some lines ∧
      W.length = cols.length ∧
      (∀ i, i < cols.length →
        IsWidest (len (cols.getD i "")) (data.map (fun row => len (row.getD i "")))
          (W.getD i 0)) ∧
      (∀ s w, (∃ k, pad s w = s ++ Repeat " " k) ∧ len (pad s w) = max (len s) w) ∧
      lines.length = data.length + 4 ∧
      (∀ l ∈ lines, len l = 1 + (W.map (fun w => w + 3)).sum) ∧
      (∀ s, Ascii s → len s = s.length) ∧
      ((∀ c ∈ cols, Ascii c) → (∀ row ∈ data, ∀ cell ∈ row, Ascii cell) →
        ∀ l ∈ lines, l.length = 1 + (W.map (fun w => w + 3)).sum) := by
  obtain ⟨W, hW1, hW2, hW3⟩ := foldlM_widen data (cols.map len)
    (by simpa using hrows)
  have hlenW : W.length = cols.length := by simpa using hW2
  have hget : ∀ i, i < cols.length → (cols.map len).getD i 0 = len (cols.getD i "") := by
    intro i hi
    simp [List.getD_eq_getElem?_getD, List.getElem?_eq_getElem hi]
  have hwide : ∀ i, i < cols.length →
      IsWidest (len (cols.getD i "")) (data.map (fun row => len (row.getD i "")))
        (W.getD i 0) := by
    intro i hi
    rw [← hget i hi]
    exact hW3 i (by simpa using hi)
  obtain ⟨header, hh1, hh2, hh3⟩ := rowLine_spec W cols hlenW.symm
    (fun i hi => (hwide i (by rw [← hlenW]; exact hi)).1)
  obtain ⟨body, hb1, hb2, hb3, hb4⟩ := rowLines_spec W data (fun row hrow =>
    ⟨by rw [hrows row hrow, hlenW], fun i hi =>
      (hwide i (by rw [← hlenW]; exact hi)).2.1 _ (List.mem_map.2 ⟨row, hrow, rfl⟩)⟩)
  have hborder : len (printBorder W) = 1 + (W.map (fun w => w + 3)).sum := by
    rw [printBorder, len_append, len_plus, len_borderCells]
  have hborderA : Ascii (printBorder W) := ascii_append _ _ ascii_plus (ascii_borderCells W)
  have hlines : ∀ l ∈ [printBorder W, header, printBorder W] ++ body ++ [printBorder W],
      len l = 1 + (W.map (fun w => w + 3)).sum := by
    intro l hl
    simp only [List.mem_append, List.mem_cons, List.mem_singleton, List.not_mem_nil,
      or_false] at hl
    rcases hl with ((rfl | rfl | rfl) | hl) | rfl
    · exact hborder
    · exact hh2
    · exact hborder
    · exact hb3 l hl
    · exact hborder
  refine ⟨W, [printBorder W, header, printBorder W] ++ body ++ [printBorder W],
    by simpa [colWidths] using hW1, by simp [printTable, colWidths, hW1, hh1, hb1], hlenW,
    hwide, fun s w => ⟨pad_extends s w, len_pad s w⟩, by simp [hb2], hlines,
    len_eq_length_of_ascii, ?_⟩
  intro hc hd l hl
  rw [← hlines l hl]
  symm
  apply len_eq_length_of_ascii
  simp only [List.mem_append, List.mem_cons, List.mem_singleton, List.not_mem_nil,
    or_false] at hl
  rcases hl with ((rfl | rfl | rfl) | hl) | rfl
  · exact hborderA
  · exact hh3 hc
  · exact hborderA
  · exact hb4 hd l hl
  · exact hborderA

/-- The table of `TestRunQuerySimpleSelect` is printed with equal line lengths. -/
theorem printTable_aligns_in_bytes_witness :
    ∃ W lines, colWidths ["name", "rank"] [["Test Movie", "8"], ["Bad Movie", "3"]] = some W ∧
      printTable ["name", "rank"] [["Test Movie", "8"], ["Bad Movie", "3"]] = some lines ∧
      W.length = (["name", "rank"] : List String).length ∧
      (∀ i, i < (["name", "rank"] : List String).length →
        IsWidest (len ((["name", "rank"] : List String).getD i ""))
          ([["Test Movie", "8"], ["Bad Movie", "3"]].map (fun row => len (row.getD i "")))
          (W.getD i 0)) ∧
      (∀ s w, (∃ k, pad s w = s ++ Repeat " " k) ∧ len (pad s w) = max (len s) w) ∧
      lines.length = ([["Test Movie", "8"], ["Bad Movie", "3"]] : List (List String)).length + 4 ∧
      (∀ l ∈ lines, len l = 1 + (W.map (fun w => w + 3)).sum) ∧
      (∀ s, Ascii s → len s = s.length) ∧
      ((∀ c ∈ (["name", "rank"] : List String), Ascii c) →
        (∀ row ∈ ([["Test Movie", "8"], ["Bad Movie", "3"]] : List (List String)),
          ∀ cell ∈ row, Ascii cell) →
        ∀ l ∈ lines, l.length = 1 + (W.map (fun w => w + 3)).sum) :=
  printTable_aligns_in_bytes ["name", "rank"] [["Test Movie", "8"], ["Bad Movie", "3"]]
    (by decide)

/-- C9 as stated fails.  For the column name `né` (two characters, three bytes) and the
cell `ab` the width is 3 although no text is longer than two characters, and the header
line has 6 characters where the borders and the data line have 7. -/
theorem printTable_misaligns_non_ascii :
    colWidths ["né"] [["ab"]] = some [3] ∧
    max ("né".length) ("ab".length) = 2 ∧
    printTable ["né"] [["ab"]] = some ["+-----+", "| né |", "+-----+", "| ab  |", "+-----+"] ∧
    "| né |".length = 6 ∧ "+-----+".length = 7 ∧ "| ab  |".length = 7 := by
  decide

end ImdbSqlite
